import Mathlib

/-!
Verification development for `src/base_model.py`.

The file defines two convolutional architectures, `UNet` and `UResNet`, as
compositions of framework layer primitives.  All of the claims under study are
about tensor shapes, construction-time weight initialization, and module state,
so the embedding works at the level of 4-d tensor shapes `(batch, channels,
height, width)`:

* every layer primitive becomes a function `Shape → Option Shape`, `none`
  modelling the dimension-mismatch faults the tensor framework raises
  (wrong channel count, output dimension below 1, incompatible `cat`, ...);
* the spatial arithmetic of each primitive follows the framework's documented
  convention: a convolution of kernel `k`, stride `st`, padding `p` maps a
  length `len` to `(len + 2p - k) / st + 1` (integer division) provided
  `k ≤ len + 2p`, max-pooling of window `k` maps `len` to `(len - k) / k + 1`,
  a transposed convolution called with an `output_size` target accepts exactly
  the targets in `[dmin, dmin + stride)` where `dmin = (len-1)*st + k - 2p`;
* construction-time weight initialization is modelled by a descriptor per
  module (`TorchModule`) and an `InitRule` assigned to it, transcribing the
  `self.modules()` loop of `UResNet.__init__`;
* module state is modelled by threading the batch-norm bookkeeping explicitly:
  `nn.BatchNorm2d` (with its default `track_running_stats=True`) increments its
  `num_batches_tracked` buffer on every forward executed in training mode and
  leaves it unchanged in eval mode; the state-threading forwards return the
  updated module state next to the output shape.
-/

/-- Shape of a 4-d tensor `(batch, channels, height, width)`. -/
structure Shape where
  n : Nat
  c : Nat
  h : Nat
  w : Nat
deriving DecidableEq

/-- `nn.Conv2d(inCh, outCh, k, stride=stride, padding=pad)` at shape level:
the channel count of the input must equal `inCh`, each spatial length `len`
must satisfy `k ≤ len + 2*pad` (otherwise the framework rejects the call),
and the output length is `(len + 2*pad - k) / stride + 1`. -/
def conv2dShape (inCh outCh k stride pad : Nat) (s : Shape) : Option Shape :=
  if s.c = inCh ∧ k ≤ s.h + 2 * pad ∧ k ≤ s.w + 2 * pad then
    some ⟨s.n, outCh, (s.h + 2 * pad - k) / stride + 1, (s.w + 2 * pad - k) / stride + 1⟩
  else none

/-- `nn.BatchNorm2d(feat)`: shape preserving, channel count must equal `feat`. -/
def batchNorm2dShape (feat : Nat) (s : Shape) : Option Shape :=
  if s.c = feat then some s else none

/-- `nn.ReLU` is elementwise and shape preserving. -/
def reluShape (s : Shape) : Shape := s

/-- `nn.MaxPool2d(k)`: window `k`, stride defaults to `k`, no padding;
output length is `(len - k) / k + 1 = len / k`, defined when `k ≤ len`. -/
def maxPool2dShape (k : Nat) (s : Shape) : Option Shape :=
  if k ≤ s.h ∧ k ≤ s.w then some ⟨s.n, s.c, (s.h - k) / k + 1, (s.w - k) / k + 1⟩ else none

/-- `nn.Upsample(scale_factor=scale, mode=bilinear)`: multiplies both
spatial lengths by `scale`. -/
def upsampleShape (scale : Nat) (s : Shape) : Shape :=
  ⟨s.n, s.c, scale * s.h, scale * s.w⟩

/-- `F.pad(x, (l, r, t, b))` in the default constant mode: pads (or, for
negative amounts, crops) the last dimension by `l` and `r` and the
second-to-last by `t` and `b`; the resulting lengths must stay positive. -/
def padShape (l r t b : Int) (s : Shape) : Option Shape :=
  if 0 < (s.h : Int) + t + b ∧ 0 < (s.w : Int) + l + r then
    some ⟨s.n, s.c, ((s.h : Int) + t + b).toNat, ((s.w : Int) + l + r).toNat⟩
  else none

/-- `torch.cat([x, y], dim=1)`: channel counts add, all other dimensions must
agree. -/
def catChannels (x y : Shape) : Option Shape :=
  if x.n = y.n ∧ x.h = y.h ∧ x.w = y.w then some ⟨x.n, x.c + y.c, x.h, x.w⟩ else none

/-- One dimension of the framework's elementwise broadcasting rule: the two
lengths must agree or one of them must be `1`. -/
def broadcastDim (a b : Nat) : Option Nat :=
  if a = b then some a else if a = 1 then some b else if b = 1 then some a else none

/-- Elementwise `x + y` with standard broadcasting over the four dimensions. -/
def addShape (x y : Shape) : Option Shape := do
  let n ← broadcastDim x.n y.n
  let c ← broadcastDim x.c y.c
  let h ← broadcastDim x.h y.h
  let w ← broadcastDim x.w y.w
  pure ⟨n, c, h, w⟩

/-- Default (minimal) output length of `nn.ConvTranspose2d` on one dimension:
`(len - 1) * stride + k - 2 * pad`. -/
def convTMin (len k stride pad : Nat) : Nat := (len - 1) * stride + k - 2 * pad

/-- `nn.ConvTranspose2d(inCh, outCh, k, stride=stride, padding=pad)` called
with `output_size` targeting `(th, tw)`: the framework accepts a target
dimension exactly when it lies in `[dmin, dmin + stride)` for the default
output length `dmin`, and then produces exactly the target. -/
def convT2dTargetShape (inCh outCh k stride pad : Nat) (th tw : Nat) (s : Shape) : Option Shape :=
  if s.c = inCh ∧ convTMin s.h k stride pad ≤ th ∧ th < convTMin s.h k stride pad + stride ∧
      convTMin s.w k stride pad ≤ tw ∧ tw < convTMin s.w k stride pad + stride then
    some ⟨s.n, outCh, th, tw⟩
  else none

/-- `nn.ConvTranspose2d` without an `output_size` argument: produces the
default output length on each spatial dimension. -/
def convT2dShape (inCh outCh k stride pad : Nat) (s : Shape) : Option Shape :=
  if s.c = inCh then some ⟨s.n, outCh, convTMin s.h k stride pad, convTMin s.w k stride pad⟩
  else none

/-- `double_conv(in_ch, out_ch)`: `(Conv2d 3x3 pad 1 → BatchNorm → ReLU)` twice
(`src/base_model.py` lines 6-22). -/
def doubleConvShape (inCh outCh : Nat) (s : Shape) : Option Shape := do
  let a ← conv2dShape inCh outCh 3 1 1 s
  let a ← batchNorm2dShape outCh a
  let a := reluShape a
  let b ← conv2dShape outCh outCh 3 1 1 a
  let b ← batchNorm2dShape outCh b
  pure (reluShape b)

/-- `inconv(in_ch, out_ch)` just wraps `double_conv` (lines 25-32). -/
def inconvShape (inCh outCh : Nat) : Shape → Option Shape := doubleConvShape inCh outCh

/-- `down(in_ch, out_ch)`: `MaxPool2d(2)` then `double_conv` (lines 35-45). -/
def downShape (inCh outCh : Nat) (s : Shape) : Option Shape := do
  let p ← maxPool2dShape 2 s
  doubleConvShape inCh outCh p

/-- The padding split computed in `up.forward` (lines 68-69) for a size
difference `diff`: `(diff // 2, diff - diff // 2)` with Python floor
division, here `Int.fdiv`. -/
def upPadPair (d : Int) : Int × Int := (d.fdiv 2, d - d.fdiv 2)

/-- `up(in_ch, out_ch, bilinear).forward(x1, x2)` (lines 48-77): upsample `x1`
(bilinear 2x upsampling, or a 2x2 stride-2 transposed convolution on
`in_ch // 2` channels when `bilinear` is false), pad `x1` to `x2`'s spatial
size with the floor/ceil split, concatenate `[x2, x1]` on channels, then
`double_conv(in_ch, out_ch)`. -/
def upShape (inCh outCh : Nat) (bilinear : Bool) (x1 x2 : Shape) : Option Shape := do
  let u ← if bilinear then pure (upsampleShape 2 x1)
          else convT2dShape (inCh / 2) (inCh / 2) 2 2 0 x1
  let diffY : Int := (x2.h : Int) - (u.h : Int)
  let diffX : Int := (x2.w : Int) - (u.w : Int)
  let p ← padShape (upPadPair diffX).1 (upPadPair diffX).2 (upPadPair diffY).1 (upPadPair diffY).2 u
  let c ← catChannels x2 p
  doubleConvShape inCh outCh c

/-- `outconv(in_ch, out_ch)`: a single 1x1 convolution (lines 80-87). -/
def outconvShape (inCh outCh : Nat) : Shape → Option Shape := conv2dShape inCh outCh 1 1 0

/-- `UNet.__init__` submodules (lines 92-104). -/
def unetIncShape (nch : Nat) : Shape → Option Shape := inconvShape nch 64

/-- `self.down1 = down(64, 128)` -/
def unetDown1Shape : Shape → Option Shape := downShape 64 128

/-- `self.down2 = down(128, 256)` -/
def unetDown2Shape : Shape → Option Shape := downShape 128 256

/-- `self.down3 = down(256, 512)` -/
def unetDown3Shape : Shape → Option Shape := downShape 256 512

/-- `self.down4 = down(512, 512)` -/
def unetDown4Shape : Shape → Option Shape := downShape 512 512

/-- `self.up1 = up(1024, 256)` (bilinear defaults to true) -/
def unetUp1Shape : Shape → Shape → Option Shape := upShape 1024 256 true

/-- `self.up2 = up(512, 128)` -/
def unetUp2Shape : Shape → Shape → Option Shape := upShape 512 128 true

/-- `self.up3 = up(256, 64)` -/
def unetUp3Shape : Shape → Shape → Option Shape := upShape 256 64 true

/-- `self.up4 = up(128, 64)` -/
def unetUp4Shape : Shape → Shape → Option Shape := upShape 128 64 true

/-- `self.outc = outconv(64, n_classes)` -/
def unetOutcShape (ncl : Nat) : Shape → Option Shape := outconvShape 64 ncl

/-- `UNet.forward` (lines 106-117). -/
def unetForward (nch ncl : Nat) (x : Shape) : Option Shape := do
  let x1 ← unetIncShape nch x
  let x2 ← unetDown1Shape x1
  let x3 ← unetDown2Shape x2
  let x4 ← unetDown3Shape x3
  let x5 ← unetDown4Shape x4
  let y1 ← unetUp1Shape x5 x4
  let y2 ← unetUp2Shape y1 x3
  let y3 ← unetUp3Shape y2 x2
  let y4 ← unetUp4Shape y3 x1
  unetOutcShape ncl y4

/-- `Bottleneck.__init__` builds the 1x1 stride-`stride` shortcut convolution
exactly when `stride > 1` (lines 174-178). -/
def bottleneckHasShortcut (stride : Nat) : Bool := decide (1 < stride)

/-- `Bottleneck(inplanes, planes, stride).forward` (lines 157-201): bypass is
the input itself (or the 1x1 stride-`stride` shortcut when `stride > 1`);
the residual path is 1x1 conv → BN → ReLU → 3x3 stride-`stride` pad-1 conv →
BN → ReLU → 1x1 conv → BN; output is `bypass + residual` then ReLU. -/
def bottleneckShape (inplanes planes stride : Nat) (x : Shape) : Option Shape := do
  let bypass ← if 1 < stride then conv2dShape inplanes planes 1 stride 0 x else pure x
  let r ← conv2dShape inplanes planes 1 1 0 x
  let r ← batchNorm2dShape planes r
  let r := reluShape r
  let r ← conv2dShape planes planes 3 stride 1 r
  let r ← batchNorm2dShape planes r
  let r := reluShape r
  let r ← conv2dShape planes planes 1 1 0 r
  let r ← batchNorm2dShape planes r
  let o ← addShape bypass r
  pure (reluShape o)

/-- `DoubleResNet(inplanes, planes, stride)` (lines 204-213): a stride-`stride`
`Bottleneck` followed by a stride-1 `Bottleneck` on `planes` channels. -/
def doubleResShape (inplanes planes stride : Nat) (x : Shape) : Option Shape := do
  let a ← bottleneckShape inplanes planes stride x
  bottleneckShape planes planes 1 a

/-- `ConvTransposeLayer(inplanes, outplanes).forward(x, output_size)`
(lines 216-225): a stride-1 `Bottleneck` on `inplanes` channels, then a 3x3
stride-2 pad-1 transposed convolution targeted at `output_size`. -/
def convTransposeLayerShape (inplanes outplanes : Nat) (th tw : Nat) (x : Shape) : Option Shape := do
  let a ← bottleneckShape inplanes inplanes 1 x
  convT2dTargetShape inplanes outplanes 3 2 1 th tw a

/-- `UResNet._make_encoding_layer` (lines 303-305): `DoubleResNet` at stride 2. -/
def makeEncodingLayer (inplanes planes : Nat) : Shape → Option Shape :=
  doubleResShape inplanes planes 2

/-- `UResNet._make_decoding_layer` (lines 307-309): a `ConvTransposeLayer`. -/
def makeDecodingLayer (inplanes planes : Nat) (th tw : Nat) : Shape → Option Shape :=
  convTransposeLayerShape inplanes planes th tw

/-- One operation of the final classifier stem of `UResNet`; the framework
also offers `nn.LogSoftmax` (the source constructs none: lines 291-292 and
403 are commented out). -/
inductive HeadOp where
  | conv2d (inCh outCh k stride pad : Nat)
  | batchNorm2d (feat : Nat)
  | relu
  | logSoftmax (dim : Nat)
deriving DecidableEq

/-- Whether a head operation is the (log-)softmax normalization. -/
def HeadOp.isLogSoftmax : HeadOp → Bool
  | .logSoftmax _ => true
  | _ => false

/-- Shape semantics of one head operation. -/
def headOpShape : HeadOp → Shape → Option Shape
  | .conv2d i o k st p, s => conv2dShape i o k st p s
  | .batchNorm2d f, s => batchNorm2dShape f s
  | .relu, s => pure (reluShape s)
  | .logSoftmax _, s => pure s

/-- Run a list of head operations in order. -/
def runOps : List HeadOp → Shape → Option Shape
  | [], s => pure s
  | op :: rest, s => (headOpShape op s).bind (runOps rest)

/-- The operations executed after `dec_layer1` in `UResNet.forward`
(lines 389-401): `conv10`/`bn10`/`relu10` on `inplanes → nkernels = 16`
channels, `conv11`/`bn11`/`relu11` on `16 → 32`, `conv12`/`bn12`/`relu12` on
`32 → 16`, then the 1x1 classifier `conv13` on `16 → num_classes`.  The
commented-out `self.softmax` (lines 291-292, 403) contributes nothing. -/
def uresnetHead (ip nc : Nat) : List HeadOp :=
  [ .conv2d ip 16 3 1 1, .batchNorm2d 16, .relu,
    .conv2d 16 32 3 1 1, .batchNorm2d 32, .relu,
    .conv2d 32 16 3 1 1, .batchNorm2d 16, .relu,
    .conv2d 16 nc 1 1 0 ]

/-- Shape semantics of the final classifier stem of `UResNet`. -/
def uresnetHeadShape (ip nc : Nat) : Shape → Option Shape := runOps (uresnetHead ip nc)

/-- The input stem of `UResNet.forward` (lines 318-328): three
`3x3 stride-1 pad-1 conv → BN → ReLU` stages, `input_channels → inplanes`,
then twice `inplanes → inplanes`. -/
def uresnetStemShape (ic ip : Nat) (x : Shape) : Option Shape := do
  let a ← conv2dShape ic ip 3 1 1 x
  let a ← batchNorm2dShape ip a
  let a := reluShape a
  let b ← conv2dShape ip ip 3 1 1 a
  let b ← batchNorm2dShape ip b
  let b := reluShape b
  let d ← conv2dShape ip ip 3 1 1 b
  let d ← batchNorm2dShape ip d
  pure (reluShape d)

/-- `self.enc_layer1 = self._make_encoding_layer(inplanes*1, inplanes*2)` -/
def uresnetEncLayer1 (ip : Nat) : Shape → Option Shape := makeEncodingLayer (ip * 1) (ip * 2)

/-- `self.enc_layer2 = self._make_encoding_layer(inplanes*2, inplanes*4)` -/
def uresnetEncLayer2 (ip : Nat) : Shape → Option Shape := makeEncodingLayer (ip * 2) (ip * 4)

/-- `self.enc_layer3 = self._make_encoding_layer(inplanes*4, inplanes*8)` -/
def uresnetEncLayer3 (ip : Nat) : Shape → Option Shape := makeEncodingLayer (ip * 4) (ip * 8)

/-- `self.enc_layer4 = self._make_encoding_layer(inplanes*8, inplanes*16)` -/
def uresnetEncLayer4 (ip : Nat) : Shape → Option Shape := makeEncodingLayer (ip * 8) (ip * 16)

/-- `self.dec_layer4 = self._make_decoding_layer(inplanes*16, inplanes*8)` -/
def uresnetDecLayer4 (ip th tw : Nat) : Shape → Option Shape :=
  makeDecodingLayer (ip * 16) (ip * 8) th tw

/-- `self.dec_layer3 = self._make_decoding_layer(inplanes*8*2, inplanes*4)` -/
def uresnetDecLayer3 (ip th tw : Nat) : Shape → Option Shape :=
  makeDecodingLayer (ip * 8 * 2) (ip * 4) th tw

/-- `self.dec_layer2 = self._make_decoding_layer(inplanes*4*2, inplanes*2)` -/
def uresnetDecLayer2 (ip th tw : Nat) : Shape → Option Shape :=
  makeDecodingLayer (ip * 4 * 2) (ip * 2) th tw

/-- `self.dec_layer1 = self._make_decoding_layer(inplanes*2*2, inplanes*1)` -/
def uresnetDecLayer1 (ip th tw : Nat) : Shape → Option Shape :=
  makeDecodingLayer (ip * 2 * 2) (ip * 1) th tw

/-- `UResNet.forward` (lines 311-408): stem, four encoding layers, four
decoding layers each targeted at the spatial size of the matching encoder
output and followed by a channel concatenation with that output
(`torch.cat([x, skip], 1)`), then the classifier stem. -/
def uresnetForward (nc ic ip : Nat) (x : Shape) : Option Shape := do
  let x0 ← uresnetStemShape ic ip x
  let x1 ← uresnetEncLayer1 ip x0
  let x2 ← uresnetEncLayer2 ip x1
  let x3 ← uresnetEncLayer3 ip x2
  let x4 ← uresnetEncLayer4 ip x3
  let d4 ← uresnetDecLayer4 ip x3.h x3.w x4
  let s4 ← catChannels d4 x3
  let d3 ← uresnetDecLayer3 ip x2.h x2.w s4
  let s3 ← catChannels d3 x2
  let d2 ← uresnetDecLayer2 ip x1.h x1.w s3
  let s2 ← catChannels d2 x1
  let d1 ← uresnetDecLayer1 ip x0.h x0.w s2
  uresnetHeadShape ip nc d1

/-! ### Equational lemmas for the layer primitives -/

theorem conv311_eq (i o n h w : Nat) (hh : 1 ≤ h) (hw : 1 ≤ w) :
    conv2dShape i o 3 1 1 ⟨n, i, h, w⟩ = some ⟨n, o, h, w⟩ := by
  unfold conv2dShape
  dsimp only
  rw [if_pos ⟨rfl, by omega, by omega⟩]
  have e1 : (h + 2 * 1 - 3) / 1 + 1 = h := by omega
  have e2 : (w + 2 * 1 - 3) / 1 + 1 = w := by omega
  rw [e1, e2]

theorem conv110_eq (i o n h w : Nat) (hh : 1 ≤ h) (hw : 1 ≤ w) :
    conv2dShape i o 1 1 0 ⟨n, i, h, w⟩ = some ⟨n, o, h, w⟩ := by
  unfold conv2dShape
  dsimp only
  rw [if_pos ⟨rfl, by omega, by omega⟩]
  have e1 : (h + 2 * 0 - 1) / 1 + 1 = h := by omega
  have e2 : (w + 2 * 0 - 1) / 1 + 1 = w := by omega
  rw [e1, e2]

theorem conv1s0_eq (i o st n h w : Nat) (hh : 1 ≤ h) (hw : 1 ≤ w) :
    conv2dShape i o 1 st 0 ⟨n, i, h, w⟩ = some ⟨n, o, (h - 1) / st + 1, (w - 1) / st + 1⟩ := by
  unfold conv2dShape
  dsimp only
  rw [if_pos ⟨rfl, by omega, by omega⟩]
  have e1 : h + 2 * 0 - 1 = h - 1 := by omega
  have e2 : w + 2 * 0 - 1 = w - 1 := by omega
  rw [e1, e2]

theorem conv3s1_eq (i o st n h w : Nat) (hh : 1 ≤ h) (hw : 1 ≤ w) :
    conv2dShape i o 3 st 1 ⟨n, i, h, w⟩ = some ⟨n, o, (h - 1) / st + 1, (w - 1) / st + 1⟩ := by
  unfold conv2dShape
  dsimp only
  rw [if_pos ⟨rfl, by omega, by omega⟩]
  have e1 : h + 2 * 1 - 3 = h - 1 := by omega
  have e2 : w + 2 * 1 - 3 = w - 1 := by omega
  rw [e1, e2]

theorem bn_eq (f n h w : Nat) : batchNorm2dShape f ⟨n, f, h, w⟩ = some ⟨n, f, h, w⟩ := by
  unfold batchNorm2dShape
  dsimp only
  rw [if_pos rfl]

theorem maxPool2_eq (c n h w : Nat) (hh : 2 ≤ h) (hw : 2 ≤ w) :
    maxPool2dShape 2 ⟨n, c, h, w⟩ = some ⟨n, c, h / 2, w / 2⟩ := by
  unfold maxPool2dShape
  dsimp only
  rw [if_pos ⟨hh, hw⟩]
  have e1 : (h - 2) / 2 + 1 = h / 2 := by omega
  have e2 : (w - 2) / 2 + 1 = w / 2 := by omega
  rw [e1, e2]

theorem addSelf_eq (s : Shape) : addShape s s = some s := by
  simp [addShape, broadcastDim]

theorem cat_eq (n c1 c2 h w : Nat) :
    catChannels ⟨n, c1, h, w⟩ ⟨n, c2, h, w⟩ = some ⟨n, c1 + c2, h, w⟩ := by
  unfold catChannels
  dsimp only
  rw [if_pos ⟨rfl, rfl, rfl⟩]

theorem convTTgt_eq (i o n h w th tw : Nat) (hh : 1 ≤ h) (hw : 1 ≤ w)
    (hth1 : 2 * h ≤ th + 1) (hth2 : th ≤ 2 * h)
    (htw1 : 2 * w ≤ tw + 1) (htw2 : tw ≤ 2 * w) :
    convT2dTargetShape i o 3 2 1 th tw ⟨n, i, h, w⟩ = some ⟨n, o, th, tw⟩ := by
  unfold convT2dTargetShape convTMin
  dsimp only
  rw [if_pos]
  refine ⟨rfl, by omega, by omega, by omega, by omega⟩

theorem padBack_eq (n c hh ww H W : Nat) (hH : 1 ≤ H) (hW : 1 ≤ W) :
    padShape (upPadPair ((W : Int) - (ww : Int))).1 (upPadPair ((W : Int) - (ww : Int))).2
      (upPadPair ((H : Int) - (hh : Int))).1 (upPadPair ((H : Int) - (hh : Int))).2
      ⟨n, c, hh, ww⟩ = some ⟨n, c, H, W⟩ := by
  unfold padShape upPadPair
  dsimp only
  rw [if_pos]
  · rw [Option.some.injEq, Shape.mk.injEq]
    refine ⟨rfl, rfl, ?_, ?_⟩ <;> omega
  · refine ⟨?_, ?_⟩ <;> omega

/-! ### Equational lemmas for the building blocks -/

theorem doubleConv_eq (i o n h w : Nat) (hh : 1 ≤ h) (hw : 1 ≤ w) :
    doubleConvShape i o ⟨n, i, h, w⟩ = some ⟨n, o, h, w⟩ := by
  simp only [doubleConvShape, reluShape, Option.pure_def, Option.bind_eq_bind,
    conv311_eq i o n h w hh hw, Option.some_bind, bn_eq, conv311_eq o o n h w hh hw]

theorem down_eq (i o n h w : Nat) (hh : 2 ≤ h) (hw : 2 ≤ w) :
    downShape i o ⟨n, i, h, w⟩ = some ⟨n, o, h / 2, w / 2⟩ := by
  simp only [downShape, Option.bind_eq_bind, maxPool2_eq i n h w hh hw, Option.some_bind,
    doubleConv_eq i o n (h / 2) (w / 2) (by omega) (by omega)]

theorem up_eq (i o c1 c2 n h1 w1 h2 w2 : Nat) (hcat : c2 + c1 = i)
    (hh2 : 1 ≤ h2) (hw2 : 1 ≤ w2) :
    upShape i o true ⟨n, c1, h1, w1⟩ ⟨n, c2, h2, w2⟩ = some ⟨n, o, h2, w2⟩ := by
  subst hcat
  unfold upShape
  rw [if_pos rfl]
  simp only [upsampleShape, Option.pure_def, Option.bind_eq_bind, Option.some_bind]
  rw [padBack_eq n c1 (2 * h1) (2 * w1) h2 w2 hh2 hw2]
  simp only [Option.some_bind, cat_eq n c2 c1 h2 w2,
    doubleConv_eq (c2 + c1) o n h2 w2 hh2 hw2]

theorem bottleneck_eq (i p st n h w : Nat) (hst : 1 ≤ st) (hc : 1 < st ∨ i = p)
    (hh : 1 ≤ h) (hw : 1 ≤ w) :
    bottleneckShape i p st ⟨n, i, h, w⟩ = some ⟨n, p, (h - 1) / st + 1, (w - 1) / st + 1⟩ := by
  unfold bottleneckShape
  rcases Nat.lt_or_ge 1 st with h1 | h1
  · rw [if_pos h1]
    simp only [Option.pure_def, Option.bind_eq_bind, Option.some_bind,
      conv1s0_eq i p st n h w hh hw, conv110_eq i p n h w hh hw, bn_eq, reluShape,
      conv3s1_eq p p st n h w hh hw,
      conv110_eq p p n ((h - 1) / st + 1) ((w - 1) / st + 1) (Nat.succ_le_succ (Nat.zero_le _))
        (Nat.succ_le_succ (Nat.zero_le _)),
      addSelf_eq]
  · have hst1 : st = 1 := by omega
    subst hst1
    rcases hc with hlt | rfl
    · omega
    · have eh : (h - 1) / 1 + 1 = h := by omega
      have ew : (w - 1) / 1 + 1 = w := by omega
      rw [if_neg (by omega)]
      simp only [Option.pure_def, Option.bind_eq_bind, Option.some_bind,
        conv110_eq i i n h w hh hw, bn_eq, reluShape, conv3s1_eq i i 1 n h w hh hw, eh, ew,
        addSelf_eq]

theorem bottleneck1_eq (p n h w : Nat) (hh : 1 ≤ h) (hw : 1 ≤ w) :
    bottleneckShape p p 1 ⟨n, p, h, w⟩ = some ⟨n, p, h, w⟩ := by
  rw [bottleneck_eq p p 1 n h w (by omega) (Or.inr rfl) hh hw]
  rw [Option.some.injEq, Shape.mk.injEq]
  refine ⟨rfl, rfl, by omega, by omega⟩

theorem doubleRes_eq (i p n h w : Nat) (hh : 1 ≤ h) (hw : 1 ≤ w) :
    doubleResShape i p 2 ⟨n, i, h, w⟩ = some ⟨n, p, (h - 1) / 2 + 1, (w - 1) / 2 + 1⟩ := by
  simp only [doubleResShape, Option.bind_eq_bind, Option.some_bind,
    bottleneck_eq i p 2 n h w (by omega) (Or.inl (by omega)) hh hw,
    bottleneck1_eq p n ((h - 1) / 2 + 1) ((w - 1) / 2 + 1) (by omega) (by omega)]

theorem ctl_eq (i o n h w th tw : Nat) (hh : 1 ≤ h) (hw : 1 ≤ w)
    (hth1 : 2 * h ≤ th + 1) (hth2 : th ≤ 2 * h) (htw1 : 2 * w ≤ tw + 1) (htw2 : tw ≤ 2 * w) :
    convTransposeLayerShape i o th tw ⟨n, i, h, w⟩ = some ⟨n, o, th, tw⟩ := by
  simp only [convTransposeLayerShape, Option.bind_eq_bind, Option.some_bind,
    bottleneck1_eq i n h w hh hw,
    convTTgt_eq i o n h w th tw hh hw hth1 hth2 htw1 htw2]

theorem stem_eq (ic ip n h w : Nat) (hh : 1 ≤ h) (hw : 1 ≤ w) :
    uresnetStemShape ic ip ⟨n, ic, h, w⟩ = some ⟨n, ip, h, w⟩ := by
  simp only [uresnetStemShape, Option.pure_def, Option.bind_eq_bind, Option.some_bind,
    conv311_eq ic ip n h w hh hw, conv311_eq ip ip n h w hh hw, bn_eq, reluShape]

theorem head_eq (ip nc n h w : Nat) (hh : 1 ≤ h) (hw : 1 ≤ w) :
    uresnetHeadShape ip nc ⟨n, ip, h, w⟩ = some ⟨n, nc, h, w⟩ := by
  simp only [uresnetHeadShape, uresnetHead, runOps, headOpShape, Option.pure_def,
    Option.some_bind, conv311_eq ip 16 n h w hh hw, conv311_eq 16 32 n h w hh hw,
    conv311_eq 32 16 n h w hh hw, conv110_eq 16 nc n h w hh hw, bn_eq, reluShape]

/-! ### Inversion lemmas: what a successful layer application tells us -/

theorem broadcastDim_self (a : Nat) : broadcastDim a a = some a := by
  unfold broadcastDim
  rw [if_pos rfl]

theorem conv2dShape_inv {i o k st p : Nat} {s y : Shape}
    (hy : conv2dShape i o k st p s = some y) :
    s.c = i ∧ y.n = s.n ∧ y.c = o ∧ y.h = (s.h + 2 * p - k) / st + 1 ∧
      y.w = (s.w + 2 * p - k) / st + 1 ∧ k ≤ s.h + 2 * p ∧ k ≤ s.w + 2 * p := by
  unfold conv2dShape at hy
  split at hy
  case isTrue hcond =>
    obtain ⟨hc, hhk, hwk⟩ := hcond
    injection hy with hy
    subst hy
    exact ⟨hc, rfl, rfl, rfl, rfl, hhk, hwk⟩
  case isFalse _ => cases hy

theorem batchNorm2dShape_inv {f : Nat} {s y : Shape} (hy : batchNorm2dShape f s = some y) :
    s.c = f ∧ y = s := by
  unfold batchNorm2dShape at hy
  split at hy
  case isTrue hc =>
    injection hy with hy
    exact ⟨hc, hy.symm⟩
  case isFalse _ => cases hy

theorem maxPool2dShape_inv {k : Nat} {s y : Shape} (hy : maxPool2dShape k s = some y) :
    k ≤ s.h ∧ k ≤ s.w ∧ y.n = s.n ∧ y.c = s.c ∧ y.h = (s.h - k) / k + 1 ∧
      y.w = (s.w - k) / k + 1 := by
  unfold maxPool2dShape at hy
  split at hy
  case isTrue hc =>
    injection hy with hy
    subst hy
    exact ⟨hc.1, hc.2, rfl, rfl, rfl, rfl⟩
  case isFalse _ => cases hy

theorem catChannels_inv {x y z : Shape} (hz : catChannels x y = some z) :
    x.n = y.n ∧ x.h = y.h ∧ x.w = y.w ∧ z.n = x.n ∧ z.c = x.c + y.c ∧ z.h = x.h ∧ z.w = x.w := by
  unfold catChannels at hz
  split at hz
  case isTrue hc =>
    injection hz with hz
    subst hz
    exact ⟨hc.1, hc.2.1, hc.2.2, rfl, rfl, rfl, rfl⟩
  case isFalse _ => cases hz

theorem convT2dTargetShape_inv {i o k st p th tw : Nat} {s y : Shape}
    (hy : convT2dTargetShape i o k st p th tw s = some y) :
    s.c = i ∧ y.n = s.n ∧ y.c = o ∧ y.h = th ∧ y.w = tw := by
  unfold convT2dTargetShape at hy
  split at hy
  case isTrue hc =>
    injection hy with hy
    subst hy
    exact ⟨hc.1, rfl, rfl, rfl, rfl⟩
  case isFalse _ => cases hy

theorem addShape_inv_c {x y z : Shape} (hc : x.c = y.c) (hz : addShape x y = some z) :
    z.c = x.c := by
  unfold addShape at hz
  simp only [Option.pure_def, Option.bind_eq_bind, Option.bind_eq_some] at hz
  obtain ⟨n, hn, c, hcb, h, hhb, w, hwb, hz⟩ := hz
  injection hz with hz
  subst hz
  rw [← hc, broadcastDim_self] at hcb
  injection hcb with hcb
  exact hcb.symm

theorem doubleConvShape_inv {i o : Nat} {s y : Shape} (hy : doubleConvShape i o s = some y) :
    s.c = i ∧ 1 ≤ s.h ∧ 1 ≤ s.w ∧ y.n = s.n ∧ y.c = o ∧ y.h = s.h ∧ y.w = s.w := by
  unfold doubleConvShape at hy
  simp only [reluShape, Option.pure_def, Option.bind_eq_bind, Option.bind_eq_some] at hy
  obtain ⟨a, ha, a2, ha2, b, hb, b2, hb2, hy⟩ := hy
  obtain ⟨hc, han, hac, hah, haw, hk1, hk2⟩ := conv2dShape_inv ha
  obtain ⟨_, ha2e⟩ := batchNorm2dShape_inv ha2
  subst ha2e
  obtain ⟨_, hbn, hbc, hbh, hbw, _, _⟩ := conv2dShape_inv hb
  obtain ⟨_, hb2e⟩ := batchNorm2dShape_inv hb2
  subst hb2e
  injection hy with hy
  subst hy
  exact ⟨hc, by omega, by omega, hbn.trans han, hbc, by omega, by omega⟩

theorem downShape_inv {i o : Nat} {s y : Shape} (hy : downShape i o s = some y) :
    2 ≤ s.h ∧ 2 ≤ s.w ∧ s.c = i ∧ y.n = s.n ∧ y.c = o ∧ y.h = s.h / 2 ∧ y.w = s.w / 2 := by
  unfold downShape at hy
  simp only [Option.bind_eq_bind, Option.bind_eq_some] at hy
  obtain ⟨p, hp, hy⟩ := hy
  obtain ⟨hk1, hk2, hpn, hpc, hph, hpw⟩ := maxPool2dShape_inv hp
  obtain ⟨hc, hh1, hw1, hyn, hyc, hyh, hyw⟩ := doubleConvShape_inv hy
  refine ⟨hk1, hk2, by rw [← hpc, hc], hyn.trans hpn, hyc, by omega, by omega⟩

theorem upShape_inv {i o : Nat} {bl : Bool} {x1 x2 y : Shape}
    (hy : upShape i o bl x1 x2 = some y) : y.h = x2.h ∧ y.w = x2.w := by
  unfold upShape at hy
  cases bl
  case false =>
    rw [if_neg (by simp)] at hy
    simp only [Option.pure_def, Option.bind_eq_bind, Option.bind_eq_some] at hy
    obtain ⟨u, hu, pp, hpp, cc, hcc, hy⟩ := hy
    obtain ⟨_, _, _, hcn, hcch, hchh, hcw⟩ := catChannels_inv hcc
    obtain ⟨_, _, _, _, _, hyh, hyw⟩ := doubleConvShape_inv hy
    constructor
    · rw [hyh, hchh]
    · rw [hyw, hcw]
  case true =>
    rw [if_pos rfl] at hy
    simp only [Option.pure_def, Option.bind_eq_bind, Option.some_bind,
      Option.bind_eq_some] at hy
    obtain ⟨pp, hpp, cc, hcc, hy⟩ := hy
    obtain ⟨_, _, _, hcn, hcch, hchh, hcw⟩ := catChannels_inv hcc
    obtain ⟨_, _, _, _, _, hyh, hyw⟩ := doubleConvShape_inv hy
    constructor
    · rw [hyh, hchh]
    · rw [hyw, hcw]

theorem convTransposeLayerShape_inv {i o th tw : Nat} {x y : Shape}
    (hy : convTransposeLayerShape i o th tw x = some y) : y.h = th ∧ y.w = tw := by
  unfold convTransposeLayerShape at hy
  simp only [Option.bind_eq_bind, Option.bind_eq_some] at hy
  obtain ⟨a, ha, ht⟩ := hy
  obtain ⟨_, _, _, hh, hw⟩ := convT2dTargetShape_inv ht
  exact ⟨hh, hw⟩

theorem bottleneckShape_inv_channels {i p st : Nat} {x y : Shape} (hpc : 1 < st ∨ i = p)
    (hy : bottleneckShape i p st x = some y) : x.c = i ∧ y.c = p := by
  unfold bottleneckShape at hy
  by_cases hst : 1 < st
  · rw [if_pos hst] at hy
    simp only [reluShape, Option.pure_def, Option.bind_eq_bind, Option.bind_eq_some] at hy
    obtain ⟨bp, hbp, a1, ha1, a2, ha2, a3, ha3, a4, ha4, a5, ha5, a6, ha6, ad, had, hy⟩ := hy
    injection hy with hy
    subst hy
    have hxc : x.c = i := (conv2dShape_inv ha1).1
    have ha6c : a6.c = p := by
      obtain ⟨_, ha6e⟩ := batchNorm2dShape_inv ha6
      subst ha6e
      exact (conv2dShape_inv ha5).2.2.1
    have hbpc : bp.c = p := (conv2dShape_inv hbp).2.2.1
    have := addShape_inv_c (hbpc.trans ha6c.symm) had
    exact ⟨hxc, this.trans hbpc⟩
  · rcases hpc with hlt | hip
    · exact absurd hlt hst
    · rw [if_neg hst] at hy
      simp only [reluShape, Option.pure_def, Option.bind_eq_bind, Option.some_bind,
        Option.bind_eq_some] at hy
      obtain ⟨a1, ha1, a2, ha2, a3, ha3, a4, ha4, a5, ha5, a6, ha6, ad, had, hy⟩ := hy
      injection hy with hy
      subst hy
      have hxc : x.c = i := (conv2dShape_inv ha1).1
      have ha6c : a6.c = p := by
        obtain ⟨_, ha6e⟩ := batchNorm2dShape_inv ha6
        subst ha6e
        exact (conv2dShape_inv ha5).2.2.1
      have hxp : x.c = a6.c := by rw [hxc, hip, ha6c]
      have := addShape_inv_c hxp had
      refine ⟨hxc, by rw [this, hxc, hip]⟩

theorem doubleResShape_inv_channels {i p st : Nat} {x y : Shape} (hst : 1 < st)
    (hy : doubleResShape i p st x = some y) : x.c = i ∧ y.c = p := by
  unfold doubleResShape at hy
  simp only [Option.bind_eq_bind, Option.bind_eq_some] at hy
  obtain ⟨a, ha, hb⟩ := hy
  exact ⟨(bottleneckShape_inv_channels (Or.inl hst) ha).1,
    (bottleneckShape_inv_channels (Or.inr rfl) hb).2⟩

/-! ### Claim C1: full-resolution output shapes of both models -/

/-- Claim C1: for every valid input tensor of shape `(batch, in_channels, H, W)`
with `batch ≥ 1` and spatial dimensions divisible enough for the encoder depth
(divisible by `2^4 = 16`), `UNet.forward` yields an output of shape
`(batch, n_classes, H, W)` and `UResNet.forward` yields an output of shape
`(batch, num_classes, H, W)`, with `H` and `W` exactly equal to the input's. -/
theorem c1_full_resolution_output (b nch ncl nc ic ip h w : Nat)
    (hb : 0 < b) (hdh : 16 ∣ h) (hdw : 16 ∣ w) (hh : 0 < h) (hw : 0 < w) (hip : 0 < ip) :
    unetForward nch ncl ⟨b, nch, h, w⟩ = some ⟨b, ncl, h, w⟩ ∧
    uresnetForward nc ic ip ⟨b, ic, h, w⟩ = some ⟨b, nc, h, w⟩ := by
  constructor
  · obtain ⟨a, rfl⟩ := hdh
    obtain ⟨d, rfl⟩ := hdw
    have h1 : unetIncShape nch ⟨b, nch, 16 * a, 16 * d⟩ = some ⟨b, 64, 16 * a, 16 * d⟩ :=
      doubleConv_eq nch 64 b (16 * a) (16 * d) (by omega) (by omega)
    have h2 : unetDown1Shape ⟨b, 64, 16 * a, 16 * d⟩ = some ⟨b, 128, 8 * a, 8 * d⟩ := by
      have := down_eq 64 128 b (16 * a) (16 * d) (by omega) (by omega)
      rw [show 16 * a / 2 = 8 * a by omega, show 16 * d / 2 = 8 * d by omega] at this
      exact this
    have h3 : unetDown2Shape ⟨b, 128, 8 * a, 8 * d⟩ = some ⟨b, 256, 4 * a, 4 * d⟩ := by
      have := down_eq 128 256 b (8 * a) (8 * d) (by omega) (by omega)
      rw [show 8 * a / 2 = 4 * a by omega, show 8 * d / 2 = 4 * d by omega] at this
      exact this
    have h4 : unetDown3Shape ⟨b, 256, 4 * a, 4 * d⟩ = some ⟨b, 512, 2 * a, 2 * d⟩ := by
      have := down_eq 256 512 b (4 * a) (4 * d) (by omega) (by omega)
      rw [show 4 * a / 2 = 2 * a by omega, show 4 * d / 2 = 2 * d by omega] at this
      exact this
    have h5 : unetDown4Shape ⟨b, 512, 2 * a, 2 * d⟩ = some ⟨b, 512, a, d⟩ := by
      have := down_eq 512 512 b (2 * a) (2 * d) (by omega) (by omega)
      rw [show 2 * a / 2 = a by omega, show 2 * d / 2 = d by omega] at this
      exact this
    have h6 : unetUp1Shape ⟨b, 512, a, d⟩ ⟨b, 512, 2 * a, 2 * d⟩ = some ⟨b, 256, 2 * a, 2 * d⟩ :=
      up_eq 1024 256 512 512 b a d (2 * a) (2 * d) (by norm_num) (by omega) (by omega)
    have h7 : unetUp2Shape ⟨b, 256, 2 * a, 2 * d⟩ ⟨b, 256, 4 * a, 4 * d⟩ =
        some ⟨b, 128, 4 * a, 4 * d⟩ :=
      up_eq 512 128 256 256 b (2 * a) (2 * d) (4 * a) (4 * d) (by norm_num) (by omega) (by omega)
    have h8 : unetUp3Shape ⟨b, 128, 4 * a, 4 * d⟩ ⟨b, 128, 8 * a, 8 * d⟩ =
        some ⟨b, 64, 8 * a, 8 * d⟩ :=
      up_eq 256 64 128 128 b (4 * a) (4 * d) (8 * a) (8 * d) (by norm_num) (by omega) (by omega)
    have h9 : unetUp4Shape ⟨b, 64, 8 * a, 8 * d⟩ ⟨b, 64, 16 * a, 16 * d⟩ =
        some ⟨b, 64, 16 * a, 16 * d⟩ :=
      up_eq 128 64 64 64 b (8 * a) (8 * d) (16 * a) (16 * d) (by norm_num) (by omega) (by omega)
    have h10 : unetOutcShape ncl ⟨b, 64, 16 * a, 16 * d⟩ = some ⟨b, ncl, 16 * a, 16 * d⟩ :=
      conv110_eq 64 ncl b (16 * a) (16 * d) (by omega) (by omega)
    simp only [unetForward, Option.bind_eq_bind, Option.some_bind,
      h1, h2, h3, h4, h5, h6, h7, h8, h9, h10]
  · set a1 := (h - 1) / 2 + 1 with ea1
    set d1 := (w - 1) / 2 + 1 with ed1
    set a2 := (a1 - 1) / 2 + 1 with ea2
    set d2 := (d1 - 1) / 2 + 1 with ed2
    set a3 := (a2 - 1) / 2 + 1 with ea3
    set d3 := (d2 - 1) / 2 + 1 with ed3
    set a4 := (a3 - 1) / 2 + 1 with ea4
    set d4 := (d3 - 1) / 2 + 1 with ed4
    have s0 : uresnetStemShape ic ip ⟨b, ic, h, w⟩ = some ⟨b, ip, h, w⟩ :=
      stem_eq ic ip b h w (by omega) (by omega)
    have s1 : uresnetEncLayer1 ip ⟨b, ip, h, w⟩ = some ⟨b, ip * 2, a1, d1⟩ := by
      show doubleResShape (ip * 1) (ip * 2) 2 ⟨b, ip, h, w⟩ = some ⟨b, ip * 2, a1, d1⟩
      rw [Nat.mul_one ip, ea1, ed1]
      exact doubleRes_eq ip (ip * 2) b h w (by omega) (by omega)
    have s2 : uresnetEncLayer2 ip ⟨b, ip * 2, a1, d1⟩ = some ⟨b, ip * 4, a2, d2⟩ := by
      rw [ea2, ed2]
      exact doubleRes_eq (ip * 2) (ip * 4) b a1 d1 (by omega) (by omega)
    have s3 : uresnetEncLayer3 ip ⟨b, ip * 4, a2, d2⟩ = some ⟨b, ip * 8, a3, d3⟩ := by
      rw [ea3, ed3]
      exact doubleRes_eq (ip * 4) (ip * 8) b a2 d2 (by omega) (by omega)
    have s4 : uresnetEncLayer4 ip ⟨b, ip * 8, a3, d3⟩ = some ⟨b, ip * 16, a4, d4⟩ := by
      rw [ea4, ed4]
      exact doubleRes_eq (ip * 8) (ip * 16) b a3 d3 (by omega) (by omega)
    have t4 : uresnetDecLayer4 ip a3 d3 ⟨b, ip * 16, a4, d4⟩ = some ⟨b, ip * 8, a3, d3⟩ :=
      ctl_eq (ip * 16) (ip * 8) b a4 d4 a3 d3 (by omega) (by omega)
        (by omega) (by omega) (by omega) (by omega)
    have c4 : catChannels ⟨b, ip * 8, a3, d3⟩ ⟨b, ip * 8, a3, d3⟩ =
        some ⟨b, ip * 8 * 2, a3, d3⟩ := by
      rw [cat_eq b (ip * 8) (ip * 8) a3 d3]
      rw [show ip * 8 + ip * 8 = ip * 8 * 2 by ring]
    have t3 : uresnetDecLayer3 ip a2 d2 ⟨b, ip * 8 * 2, a3, d3⟩ = some ⟨b, ip * 4, a2, d2⟩ :=
      ctl_eq (ip * 8 * 2) (ip * 4) b a3 d3 a2 d2 (by omega) (by omega)
        (by omega) (by omega) (by omega) (by omega)
    have c3 : catChannels ⟨b, ip * 4, a2, d2⟩ ⟨b, ip * 4, a2, d2⟩ =
        some ⟨b, ip * 4 * 2, a2, d2⟩ := by
      rw [cat_eq b (ip * 4) (ip * 4) a2 d2]
      rw [show ip * 4 + ip * 4 = ip * 4 * 2 by ring]
    have t2 : uresnetDecLayer2 ip a1 d1 ⟨b, ip * 4 * 2, a2, d2⟩ = some ⟨b, ip * 2, a1, d1⟩ :=
      ctl_eq (ip * 4 * 2) (ip * 2) b a2 d2 a1 d1 (by omega) (by omega)
        (by omega) (by omega) (by omega) (by omega)
    have c2 : catChannels ⟨b, ip * 2, a1, d1⟩ ⟨b, ip * 2, a1, d1⟩ =
        some ⟨b, ip * 2 * 2, a1, d1⟩ := by
      rw [cat_eq b (ip * 2) (ip * 2) a1 d1]
      rw [show ip * 2 + ip * 2 = ip * 2 * 2 by ring]
    have t1 : uresnetDecLayer1 ip h w ⟨b, ip * 2 * 2, a1, d1⟩ = some ⟨b, ip, h, w⟩ := by
      show convTransposeLayerShape (ip * 2 * 2) (ip * 1) h w ⟨b, ip * 2 * 2, a1, d1⟩ =
        some ⟨b, ip, h, w⟩
      rw [Nat.mul_one ip]
      exact ctl_eq (ip * 2 * 2) ip b a1 d1 h w (by omega) (by omega)
        (by omega) (by omega) (by omega) (by omega)
    have hd : uresnetHeadShape ip nc ⟨b, ip, h, w⟩ = some ⟨b, nc, h, w⟩ :=
      head_eq ip nc b h w (by omega) (by omega)
    unfold uresnetForward
    simp only [Option.bind_eq_bind]
    rw [Option.bind_eq_some]
    refine ⟨_, s0, ?_⟩
    dsimp only
    rw [Option.bind_eq_some]
    refine ⟨_, s1, ?_⟩
    dsimp only
    rw [Option.bind_eq_some]
    refine ⟨_, s2, ?_⟩
    dsimp only
    rw [Option.bind_eq_some]
    refine ⟨_, s3, ?_⟩
    dsimp only
    rw [Option.bind_eq_some]
    refine ⟨_, s4, ?_⟩
    dsimp only
    rw [Option.bind_eq_some]
    refine ⟨_, t4, ?_⟩
    dsimp only
    rw [Option.bind_eq_some]
    refine ⟨_, c4, ?_⟩
    dsimp only
    rw [Option.bind_eq_some]
    refine ⟨_, t3, ?_⟩
    dsimp only
    rw [Option.bind_eq_some]
    refine ⟨_, c3, ?_⟩
    dsimp only
    rw [Option.bind_eq_some]
    refine ⟨_, t2, ?_⟩
    dsimp only
    rw [Option.bind_eq_some]
    refine ⟨_, c2, ?_⟩
    dsimp only
    rw [Option.bind_eq_some]
    refine ⟨_, t1, ?_⟩
    dsimp only
    exact hd

/-- Witness for `c1_full_resolution_output`: the two end-to-end shape checks of
the specification, `UNet(3, 5)` on `(1, 3, 16, 16)` and
`UResNet(num_classes=2, input_channels=1, inplanes=16)` on `(1, 1, 16, 16)`. -/
theorem c1_full_resolution_output_witness :
    unetForward 3 5 ⟨1, 3, 16, 16⟩ = some ⟨1, 5, 16, 16⟩ ∧
    uresnetForward 2 1 16 ⟨1, 1, 16, 16⟩ = some ⟨1, 2, 16, 16⟩ :=
  c1_full_resolution_output 1 3 5 2 1 16 16 16 (by decide) (by decide) (by decide)
    (by decide) (by decide) (by decide)

/-! ### Claim C2: decoder output matches its skip partner's spatial size -/

/-- Claim C2: for every decoder stage of UNet and UResNet and for both even and
odd input spatial dimensions, the stage's output spatial size (after UNet's
padding, respectively UResNet's explicit `output_size` targeting of the
transposed convolution) exactly equals the spatial size of the encoder skip
tensor it is combined with: whenever `up.forward(x1, x2)` succeeds its result
has `x2`'s height and width, and whenever `ConvTransposeLayer.forward(x,
output_size)` succeeds its result has exactly the targeted height and width. -/
theorem c2_decoder_skip_spatial_match :
    (∀ (i o : Nat) (bl : Bool) (x1 x2 y : Shape), upShape i o bl x1 x2 = some y →
      y.h = x2.h ∧ y.w = x2.w) ∧
    (∀ (i o th tw : Nat) (x y : Shape), convTransposeLayerShape i o th tw x = some y →
      y.h = th ∧ y.w = tw) :=
  ⟨fun _ _ _ _ _ _ hy => upShape_inv hy, fun _ _ _ _ _ _ hy => convTransposeLayerShape_inv hy⟩

/-- Witness for `c2_decoder_skip_spatial_match`: an odd-size skip tensor
(5 versus upsampled 4) for the UNet stage, and an odd target (13 from input 7)
for the UResNet stage. -/
theorem c2_decoder_skip_spatial_match_witness :
    ((5 : Nat) = 5 ∧ (5 : Nat) = 5) ∧ ((13 : Nat) = 13 ∧ (17 : Nat) = 17) :=
  ⟨c2_decoder_skip_spatial_match.1 2 1 true ⟨1, 1, 2, 2⟩ ⟨1, 1, 5, 5⟩ ⟨1, 1, 5, 5⟩ (by decide),
   c2_decoder_skip_spatial_match.2 16 8 13 17 ⟨1, 16, 7, 9⟩ ⟨1, 8, 13, 17⟩ (by decide)⟩

/-! ### Claim C4: the Bottleneck contract -/

/-- Counterexample to claim C4 as stated: `Bottleneck(2, 3, stride=1)` applied
to an input with 2 channels does not succeed.  With stride 1 no shortcut is
built, so the bypass keeps the 2 input channels while the residual path
produces 3, and the residual addition `bypass + residual` is rejected by the
framework (2 and 3 are not broadcast-compatible). -/
theorem c4_bottleneck_counterexample : bottleneckShape 2 3 1 ⟨1, 2, 4, 4⟩ = none := by
  decide

/-- Claim C4 (amended): for every `Bottleneck(inplanes, planes, stride)` with
`stride > 1` or `inplanes = planes`, the forward pass succeeds on every input
with `inplanes` channels (the residual addition is well-formed), the output
has `planes` channels with spatial dimensions `(d - 1) / stride + 1` fully
determined by the constructor arguments, and the 1x1 stride-matching shortcut
is built exactly when `stride > 1` (not exactly when the input and output
resolutions differ: at spatial size 1x1 with stride 2 the shortcut exists but
the resolution is unchanged). -/
theorem c4_bottleneck_contract (i p st n h w : Nat) (hst : 1 ≤ st)
    (hok : 1 < st ∨ i = p) (hh : 1 ≤ h) (hw : 1 ≤ w) :
    bottleneckShape i p st ⟨n, i, h, w⟩ = some ⟨n, p, (h - 1) / st + 1, (w - 1) / st + 1⟩ ∧
    (bottleneckHasShortcut st = true ↔ 1 < st) :=
  ⟨bottleneck_eq i p st n h w hst hok hh hw, by simp [bottleneckHasShortcut]⟩

/-- Witness for `c4_bottleneck_contract`: `Bottleneck(2, 3, stride=2)` on a
5x5 input maps it to a 3-channel 3x3 output and has the shortcut. -/
theorem c4_bottleneck_contract_witness :
    bottleneckShape 2 3 2 ⟨1, 2, 5, 5⟩ = some ⟨1, 3, 3, 3⟩ ∧
    (bottleneckHasShortcut 2 = true ↔ 1 < 2) := by
  have := c4_bottleneck_contract 2 3 2 1 5 5 (by decide) (Or.inl (by decide))
    (by decide) (by decide)
  simpa using this

/-! ### Claim C5: channel doubling along the encoders -/

/-- Counterexample to claim C5 as stated: UNet's fourth down stage is
`down(512, 512)`; on a valid input it produces 512 output channels from 512
input channels, which is not twice the input channel count. -/
theorem c5_channel_doubling_counterexample :
    unetDown4Shape ⟨1, 512, 8, 8⟩ = some ⟨1, 512, 4, 4⟩ ∧ (512 : Nat) ≠ 2 * 512 := by
  exact ⟨by decide, by decide⟩

/-- Claim C5 (amended): UNet's down1, down2 and down3 double the channel count
of their input, but down4 (`down(512, 512)`) keeps it unchanged; all four
encoding layers of UResNet double the channel count of their input. -/
theorem c5_channel_doubling (ip : Nat) :
    (∀ s y : Shape, unetDown1Shape s = some y → y.c = 2 * s.c) ∧
    (∀ s y : Shape, unetDown2Shape s = some y → y.c = 2 * s.c) ∧
    (∀ s y : Shape, unetDown3Shape s = some y → y.c = 2 * s.c) ∧
    (∀ s y : Shape, unetDown4Shape s = some y → y.c = s.c) ∧
    (∀ s y : Shape, uresnetEncLayer1 ip s = some y → y.c = 2 * s.c) ∧
    (∀ s y : Shape, uresnetEncLayer2 ip s = some y → y.c = 2 * s.c) ∧
    (∀ s y : Shape, uresnetEncLayer3 ip s = some y → y.c = 2 * s.c) ∧
    (∀ s y : Shape, uresnetEncLayer4 ip s = some y → y.c = 2 * s.c) := by
  refine ⟨?_, ?_, ?_, ?_, ?_, ?_, ?_, ?_⟩ <;> intro s y hy
  · obtain ⟨_, _, hc, _, hyc, _, _⟩ := downShape_inv hy
    omega
  · obtain ⟨_, _, hc, _, hyc, _, _⟩ := downShape_inv hy
    omega
  · obtain ⟨_, _, hc, _, hyc, _, _⟩ := downShape_inv hy
    omega
  · obtain ⟨_, _, hc, _, hyc, _, _⟩ := downShape_inv hy
    omega
  · obtain ⟨hc, hyc⟩ := doubleResShape_inv_channels (by omega) hy
    omega
  · obtain ⟨hc, hyc⟩ := doubleResShape_inv_channels (by omega) hy
    omega
  · obtain ⟨hc, hyc⟩ := doubleResShape_inv_channels (by omega) hy
    omega
  · obtain ⟨hc, hyc⟩ := doubleResShape_inv_channels (by omega) hy
    omega

/-- Witness for `c5_channel_doubling`: each stage applied to a concrete
successful input, with `inplanes = 16` for UResNet. -/
theorem c5_channel_doubling_witness :
    (128 : Nat) = 2 * 64 ∧ (256 : Nat) = 2 * 128 ∧ (512 : Nat) = 2 * 256 ∧
    (512 : Nat) = 512 ∧ (32 : Nat) = 2 * 16 ∧ (64 : Nat) = 2 * 32 ∧
    (128 : Nat) = 2 * 64 ∧ (256 : Nat) = 2 * 128 :=
  ⟨(c5_channel_doubling 16).1 ⟨1, 64, 4, 4⟩ ⟨1, 128, 2, 2⟩ (by decide),
   (c5_channel_doubling 16).2.1 ⟨1, 128, 4, 4⟩ ⟨1, 256, 2, 2⟩ (by decide),
   (c5_channel_doubling 16).2.2.1 ⟨1, 256, 4, 4⟩ ⟨1, 512, 2, 2⟩ (by decide),
   (c5_channel_doubling 16).2.2.2.1 ⟨1, 512, 4, 4⟩ ⟨1, 512, 2, 2⟩ (by decide),
   (c5_channel_doubling 16).2.2.2.2.1 ⟨1, 16, 4, 4⟩ ⟨1, 32, 2, 2⟩ (by decide),
   (c5_channel_doubling 16).2.2.2.2.2.1 ⟨1, 32, 4, 4⟩ ⟨1, 64, 2, 2⟩ (by decide),
   (c5_channel_doubling 16).2.2.2.2.2.2.1 ⟨1, 64, 4, 4⟩ ⟨1, 128, 2, 2⟩ (by decide),
   (c5_channel_doubling 16).2.2.2.2.2.2.2 ⟨1, 128, 4, 4⟩ ⟨1, 256, 2, 2⟩ (by decide)⟩

/-! ### Claim C6: encoder stages halve the spatial resolution -/

/-- Claim C6: every encoder stage halves the spatial dimensions with the
framework's rounding: UNet's down stage (2x2 max-pooling) maps height H to
floor(H/2) whenever it runs, and UResNet's encoding layer (whose first
Bottleneck uses a stride-2 padded 3x3 convolution) maps H to ceil(H/2),
written here as `(H + 1) / 2` in natural division. -/
theorem c6_encoder_halves_resolution :
    (∀ (i o : Nat) (s y : Shape), downShape i o s = some y →
      y.h = s.h / 2 ∧ y.w = s.w / 2) ∧
    (∀ (i p n h w : Nat), 1 ≤ h → 1 ≤ w →
      makeEncodingLayer i p ⟨n, i, h, w⟩ = some ⟨n, p, (h + 1) / 2, (w + 1) / 2⟩) := by
  constructor
  · intro i o s y hy
    obtain ⟨_, _, _, _, _, hh, hw⟩ := downShape_inv hy
    exact ⟨hh, hw⟩
  · intro i p n h w hh hw
    have e1 : (h - 1) / 2 + 1 = (h + 1) / 2 := by omega
    have e2 : (w - 1) / 2 + 1 = (w + 1) / 2 := by omega
    have := doubleRes_eq i p n h w hh hw
    rw [e1, e2] at this
    exact this

/-- Witness for `c6_encoder_halves_resolution`: an odd 7x9 input, pooled to
3x4 by a down stage and strided to 4x5 by an encoding layer. -/
theorem c6_encoder_halves_resolution_witness :
    ((3 : Nat) = 3 ∧ (4 : Nat) = 4) ∧
    makeEncodingLayer 16 32 ⟨1, 16, 7, 9⟩ = some ⟨1, 32, 4, 5⟩ :=
  ⟨c6_encoder_halves_resolution.1 64 128 ⟨1, 64, 7, 9⟩ ⟨1, 128, 3, 4⟩ (by decide),
   c6_encoder_halves_resolution.2 16 32 1 7 9 (by decide) (by decide)⟩

/-! ### Claim C7: the floor/ceil padding split -/

/-- Claim C7: in UNet's up stage, a spatial size discrepancy `d` between the
skip tensor and the upsampled tensor is resolved by asymmetric padding split
as floor(d/2) on one side and `d - floor(d/2)`, the ceiling, on the other;
for an odd `d` the two sides sum to `d` and differ by exactly one, centering
the upsampled tensor.  Here `d / 2` on `Int` rounds toward negative infinity
for the positive divisor 2, matching Python floor division. -/
theorem c7_odd_padding_split (d : Int) (hd : Odd d) :
    (upPadPair d).1 + (upPadPair d).2 = d ∧
    (upPadPair d).2 = (upPadPair d).1 + 1 ∧
    (upPadPair d).1 = d / 2 ∧
    (upPadPair d).2 = -(-d / 2) := by
  obtain ⟨k, hk⟩ := hd
  unfold upPadPair
  dsimp only
  rw [Int.fdiv_eq_ediv d (by norm_num)]
  subst hk
  refine ⟨by omega, by omega, by omega, by omega⟩

/-- Witness for `c7_odd_padding_split` at the odd difference 3: the split is
(1, 2). -/
theorem c7_odd_padding_split_witness :
    (upPadPair 3).1 + (upPadPair 3).2 = 3 ∧
    (upPadPair 3).2 = (upPadPair 3).1 + 1 ∧
    (upPadPair 3).1 = 3 / 2 ∧
    (upPadPair 3).2 = -(-3 / 2) :=
  c7_odd_padding_split 3 ⟨1, by norm_num⟩

/-! ### Claim C3: construction-time weight initialization -/

/-- A framework layer of the kinds the two models construct, carrying the data
the initialization loop of `UResNet.__init__` inspects: kernel size and
output channel count. -/
inductive TorchModule where
  | conv2d (inCh outCh kh kw : Nat)
  | convTranspose2d (inCh outCh kh kw : Nat)
  | batchNorm2d (feat : Nat)
  | maxPool2d (k : Nat)
  | relu
  | upsample
deriving DecidableEq

/-- How a module's weight tensors are initialized at construction:
the framework default (Kaiming-uniform for convolutions), a zero-mean normal
with standard deviation `sqrt(2 / n)` for the recorded `n`, or the batch-norm
rule weight all ones and bias all zeros. -/
inductive InitRule where
  | torchDefault
  | normalZeroSqrtTwoOver (n : Nat)
  | bnOnesZeros
deriving DecidableEq

/-- The body of the initialization loop of `UResNet.__init__` (lines 295-301):
convolutions and transposed convolutions get weights drawn from
`normal(0, sqrt(2/n))` with `n = kernel_size[0] * kernel_size[1] *
out_channels`; batch-norm layers get weight filled with 1 and bias zeroed;
every other module is left as constructed. -/
def uresnetInitRule : TorchModule → InitRule
  | .conv2d _ o kh kw => .normalZeroSqrtTwoOver (kh * kw * o)
  | .convTranspose2d _ o kh kw => .normalZeroSqrtTwoOver (kh * kw * o)
  | .batchNorm2d _ => .bnOnesZeros
  | _ => .torchDefault

/-- Submodules of `double_conv(i, o)` in construction order. -/
def doubleConvModules (i o : Nat) : List TorchModule :=
  [.conv2d i o 3 3, .batchNorm2d o, .relu, .conv2d o o 3 3, .batchNorm2d o, .relu]

/-- Submodules of `down(i, o)`. -/
def downModules (i o : Nat) : List TorchModule := .maxPool2d 2 :: doubleConvModules i o

/-- Submodules of `up(i, o)` with the default bilinear upsampling. -/
def upModules (i o : Nat) : List TorchModule := .upsample :: doubleConvModules i o

/-- All modules constructed by `UNet.__init__` (lines 92-104). -/
def unetModules (nch ncl : Nat) : List TorchModule :=
  doubleConvModules nch 64 ++ downModules 64 128 ++ downModules 128 256 ++
    downModules 256 512 ++ downModules 512 512 ++ upModules 1024 256 ++
    upModules 512 128 ++ upModules 256 64 ++ upModules 128 64 ++ [.conv2d 64 ncl 1 1]

/-- Submodules of `Bottleneck(i, p, st)`: the three residual convolutions with
their batch norms, the ReLU, and the 1x1 shortcut convolution when `st > 1`. -/
def bottleneckModules (i p st : Nat) : List TorchModule :=
  [.conv2d i p 1 1, .batchNorm2d p, .conv2d p p 3 3, .batchNorm2d p,
    .conv2d p p 1 1, .batchNorm2d p, .relu] ++
    (if 1 < st then [.conv2d i p 1 1] else [])

/-- Submodules of `DoubleResNet(i, p, st)`. -/
def doubleResModules (i p st : Nat) : List TorchModule :=
  bottleneckModules i p st ++ bottleneckModules p p 1

/-- Submodules of `ConvTransposeLayer(i, o)`: a stride-1 bottleneck and the
3x3 stride-2 transposed convolution. -/
def ctlModules (i o : Nat) : List TorchModule :=
  bottleneckModules i i 1 ++ [.convTranspose2d i o 3 3]

/-- All modules constructed by `UResNet.__init__` (lines 230-292). -/
def uresnetModules (nc ic ip : Nat) : List TorchModule :=
  [.conv2d ic ip 3 3, .batchNorm2d ip, .relu, .conv2d ip ip 3 3, .batchNorm2d ip, .relu,
    .conv2d ip ip 3 3, .batchNorm2d ip, .relu] ++
    doubleResModules (ip * 1) (ip * 2) 2 ++ doubleResModules (ip * 2) (ip * 4) 2 ++
    doubleResModules (ip * 4) (ip * 8) 2 ++ doubleResModules (ip * 8) (ip * 16) 2 ++
    ctlModules (ip * 16) (ip * 8) ++ ctlModules (ip * 8 * 2) (ip * 4) ++
    ctlModules (ip * 4 * 2) (ip * 2) ++ ctlModules (ip * 2 * 2) (ip * 1) ++
    [.conv2d ip 16 3 3, .batchNorm2d 16, .relu, .conv2d 16 32 3 3, .batchNorm2d 32, .relu,
      .conv2d 32 16 3 3, .batchNorm2d 16, .relu, .conv2d 16 nc 1 1]

/-- `UResNet.__init__` ends with `for m in self.modules(): ...`, assigning the
rule of `uresnetInitRule` to every module. -/
def uresnetInitializedModules (nc ic ip : Nat) : List (TorchModule × InitRule) :=
  (uresnetModules nc ic ip).map fun m => (m, uresnetInitRule m)

/-- `UNet.__init__` performs no initialization pass, so every module keeps the
framework default initialization. -/
def unetInitializedModules (nch ncl : Nat) : List (TorchModule × InitRule) :=
  (unetModules nch ncl).map fun m => (m, InitRule.torchDefault)

/-- The rule claimed by the specification, per module (modelled from the
spec's words): convolution and transposed-convolution weights drawn from a
zero-mean normal scaled by `sqrt(2/n)` with `n = kernel_area * out_channels`,
batch-norm weight all ones and bias all zeros. -/
def claimedInitRule : TorchModule × InitRule → Prop
  | (.conv2d _ o kh kw, r) => r = .normalZeroSqrtTwoOver (kh * kw * o)
  | (.convTranspose2d _ o kh kw, r) => r = .normalZeroSqrtTwoOver (kh * kw * o)
  | (.batchNorm2d _, r) => r = .bnOnesZeros
  | _ => True

/-- Counterexample to claim C3 as stated: the first convolution of `UNet(3, 5)`
keeps the framework default initialization, because `UNet.__init__` contains
no initialization loop; the claimed `sqrt(2/n)` normal rule does not hold for
it, so the rule does not hold for the weights of both models. -/
theorem c3_initialization_counterexample :
    (TorchModule.conv2d 3 64 3 3, InitRule.torchDefault) ∈ unetInitializedModules 3 5 ∧
    ¬ claimedInitRule (TorchModule.conv2d 3 64 3 3, InitRule.torchDefault) :=
  ⟨by decide, by simp [claimedInitRule]⟩

/-- Claim C3 (amended): the initialization rule of the specification is applied
by `UResNet.__init__` to every one of its modules, for every choice of the
constructor parameters; `UNet.__init__` performs no such pass and leaves every
one of its modules at the framework default initialization. -/
theorem c3_initialization_rule (nc ic ip nch ncl : Nat) :
    (∀ pr ∈ uresnetInitializedModules nc ic ip, claimedInitRule pr) ∧
    (∀ pr ∈ unetInitializedModules nch ncl, pr.2 = InitRule.torchDefault) := by
  constructor
  · intro pr hpr
    obtain ⟨m, hm, rfl⟩ := List.mem_map.mp hpr
    cases m <;> simp [uresnetInitRule, claimedInitRule]
  · intro pr hpr
    obtain ⟨m, hm, rfl⟩ := List.mem_map.mp hpr
    rfl

/-- Witness for `c3_initialization_rule`: the stem convolution of
`UResNet(2, 1, 16)` carries the normal rule with `n = 3 * 3 * 16`, and the
first convolution of `UNet(3, 5)` carries the framework default. -/
theorem c3_initialization_rule_witness :
    claimedInitRule (TorchModule.conv2d 1 16 3 3,
      InitRule.normalZeroSqrtTwoOver (3 * 3 * 16)) ∧
    (TorchModule.conv2d 3 64 3 3, InitRule.torchDefault).2 = InitRule.torchDefault :=
  ⟨(c3_initialization_rule 2 1 16 3 5).1
      (TorchModule.conv2d 1 16 3 3, InitRule.normalZeroSqrtTwoOver (3 * 3 * 16)) (by decide),
   (c3_initialization_rule 2 1 16 3 5).2
      (TorchModule.conv2d 3 64 3 3, InitRule.torchDefault) (by decide)⟩

/-! ### Claim C10: UResNet returns raw classifier scores -/

/-- Dot product of two rational score vectors. -/
def dotQ : List ℚ → List ℚ → ℚ
  | a :: as, e :: es => a * e + dotQ as es
  | _, _ => 0

/-- Per-pixel action of a 1x1 convolution with bias, such as `conv13`: every
output class score is a weighted sum of the input channel values plus a bias;
no normalization over classes is part of it. -/
def conv1x1Pixel (weight : List (List ℚ)) (bias : List ℚ) (v : List ℚ) : List ℚ :=
  List.zipWith (fun row e => dotQ row v + e) weight bias

/-- Claim C10: `UResNet.forward` returns raw, unnormalized class scores.  Its
final operation sequence ends with the 1x1 classifier convolution `conv13`
mapping 16 channels to `num_classes`; no (log-)softmax appears among the head
operations (the `self.softmax` of the source is commented out), the head
yields exactly `num_classes` channels whenever it runs, and a 1x1 convolution
can output per-pixel class scores that are negative and do not sum to 1, as
the concrete weight/input instance shows. -/
theorem c10_raw_unnormalized_scores (ip nc : Nat) :
    (uresnetHead ip nc).getLast? = some (HeadOp.conv2d 16 nc 1 1 0) ∧
    (uresnetHead ip nc).all (fun op => !op.isLogSoftmax) = true ∧
    (∀ s y : Shape, uresnetHeadShape ip nc s = some y → y.c = nc) ∧
    conv1x1Pixel [[1], [-2]] [0, 0] [1] = [1, -2] ∧
    ((1 : ℚ) + (-2) ≠ 1) ∧ ((-2 : ℚ) < 0) := by
  refine ⟨rfl, rfl, ?_, ?_, by norm_num, by norm_num⟩
  · intro s y hy
    simp only [uresnetHeadShape, uresnetHead, runOps, headOpShape, reluShape,
      Option.pure_def, Option.some_bind, Option.bind_eq_some, Option.some.injEq] at hy
    obtain ⟨a1, h1, a2, h2, a3, h3, a4, h4, a5, h5, a6, h6, a7, h7, rfl⟩ := hy
    exact (conv2dShape_inv h7).2.2.1
  · norm_num [conv1x1Pixel, dotQ]

/-- Witness for `c10_raw_unnormalized_scores`: the head of
`UResNet(num_classes=2, inplanes=16)` maps a 16-channel 4x4 tensor to a
2-channel one. -/
theorem c10_raw_unnormalized_scores_witness : (⟨1, 2, 4, 4⟩ : Shape).c = 2 :=
  (c10_raw_unnormalized_scores 16 2).2.2.1 ⟨1, 16, 4, 4⟩ ⟨1, 2, 4, 4⟩ (by decide)

/-! ### Module state: batch-norm bookkeeping threaded through the forwards

Claims C8 and C9 are about module state across forward calls.  The modules of
this file own no mutable attributes of their own (no forward method assigns to
`self`); the only mutable per-layer state in the composed models is the
batch-norm running-statistics bookkeeping of the framework: with the
constructor defaults (`track_running_stats=True`) every `nn.BatchNorm2d`
updates its running statistics and increments its `num_batches_tracked`
buffer on each forward executed in training mode (the mode a freshly
constructed model is in), and touches nothing in eval mode.  The counter
increments exactly when the running statistics are rewritten, so it stands in
for the whole mutable state of the layer here. -/

/-- Mutable state of one `nn.BatchNorm2d`. -/
structure BNState where
  numBatchesTracked : Nat
deriving DecidableEq

/-- Construction-time batch-norm state: `num_batches_tracked = 0`. -/
def initBN : BNState := ⟨0⟩

/-- One `nn.BatchNorm2d` forward at state level. -/
def bnStep (training : Bool) (st : BNState) : BNState :=
  ⟨st.numBatchesTracked + (if training then 1 else 0)⟩

theorem bnStep_false (st : BNState) : bnStep false st = st := rfl

/-- States of the two batch norms of a `double_conv`. -/
structure DoubleConvState where
  bn1 : BNState
  bn2 : BNState
deriving DecidableEq

/-- Construction-time state of a `double_conv`. -/
def initDoubleConv : DoubleConvState := ⟨initBN, initBN⟩

/-- `double_conv.forward` with module state threaded through. -/
def doubleConvFwd (tr : Bool) (inCh outCh : Nat) (s : Shape) (st : DoubleConvState) :
    Option (Shape × DoubleConvState) := do
  let a ← conv2dShape inCh outCh 3 1 1 s
  let a ← batchNorm2dShape outCh a
  let st1 := bnStep tr st.bn1
  let a := reluShape a
  let e ← conv2dShape outCh outCh 3 1 1 a
  let e ← batchNorm2dShape outCh e
  let st2 := bnStep tr st.bn2
  pure (reluShape e, ⟨st1, st2⟩)

/-- `down.forward` with module state threaded through. -/
def downFwd (tr : Bool) (inCh outCh : Nat) (s : Shape) (st : DoubleConvState) :
    Option (Shape × DoubleConvState) := do
  let p ← maxPool2dShape 2 s
  doubleConvFwd tr inCh outCh p st

/-- `up.forward` (bilinear branch, the one UNet constructs) with module state
threaded through. -/
def upFwd (tr : Bool) (inCh outCh : Nat) (x1 x2 : Shape) (st : DoubleConvState) :
    Option (Shape × DoubleConvState) := do
  let u := upsampleShape 2 x1
  let diffY : Int := (x2.h : Int) - (u.h : Int)
  let diffX : Int := (x2.w : Int) - (u.w : Int)
  let p ← padShape (upPadPair diffX).1 (upPadPair diffX).2 (upPadPair diffY).1
    (upPadPair diffY).2 u
  let c ← catChannels x2 p
  doubleConvFwd tr inCh outCh c st

/-- States of the three batch norms of a `Bottleneck`. -/
structure BottleneckState where
  bn1 : BNState
  bn2 : BNState
  bn3 : BNState
deriving DecidableEq

/-- Construction-time state of a `Bottleneck`. -/
def initBottleneck : BottleneckState := ⟨initBN, initBN, initBN⟩

/-- `Bottleneck.forward` with module state threaded through. -/
def bottleneckFwd (tr : Bool) (inplanes planes stride : Nat) (x : Shape)
    (st : BottleneckState) : Option (Shape × BottleneckState) := do
  let bypass ← if 1 < stride then conv2dShape inplanes planes 1 stride 0 x else pure x
  let r ← conv2dShape inplanes planes 1 1 0 x
  let r ← batchNorm2dShape planes r
  let st1 := bnStep tr st.bn1
  let r := reluShape r
  let r2 ← conv2dShape planes planes 3 stride 1 r
  let r2 ← batchNorm2dShape planes r2
  let st2 := bnStep tr st.bn2
  let r2 := reluShape r2
  let r3 ← conv2dShape planes planes 1 1 0 r2
  let r3 ← batchNorm2dShape planes r3
  let st3 := bnStep tr st.bn3
  let o ← addShape bypass r3
  pure (reluShape o, ⟨st1, st2, st3⟩)

/-- States of the two bottlenecks of a `DoubleResNet`. -/
structure DoubleResState where
  res1 : BottleneckState
  res2 : BottleneckState
deriving DecidableEq

/-- Construction-time state of a `DoubleResNet`. -/
def initDoubleRes : DoubleResState := ⟨initBottleneck, initBottleneck⟩

/-- `DoubleResNet.forward` with module state threaded through. -/
def doubleResFwd (tr : Bool) (inplanes planes stride : Nat) (x : Shape)
    (st : DoubleResState) : Option (Shape × DoubleResState) := do
  let (a, s1) ← bottleneckFwd tr inplanes planes stride x st.res1
  let (e, s2) ← bottleneckFwd tr planes planes 1 a st.res2
  pure (e, ⟨s1, s2⟩)

/-- State of a `ConvTransposeLayer` (its bottleneck; the transposed
convolution has no batch norm). -/
structure CTLState where
  res : BottleneckState
deriving DecidableEq

/-- Construction-time state of a `ConvTransposeLayer`. -/
def initCTL : CTLState := ⟨initBottleneck⟩

/-- `ConvTransposeLayer.forward` with module state threaded through. -/
def ctlFwd (tr : Bool) (inplanes outplanes : Nat) (th tw : Nat) (x : Shape)
    (st : CTLState) : Option (Shape × CTLState) := do
  let (a, s1) ← bottleneckFwd tr inplanes inplanes 1 x st.res
  let e ← convT2dTargetShape inplanes outplanes 3 2 1 th tw a
  pure (e, ⟨s1⟩)

theorem doubleConvFwd_eval (inCh outCh : Nat) (s : Shape) (st : DoubleConvState) :
    doubleConvFwd false inCh outCh s st =
      (doubleConvShape inCh outCh s).map fun y => (y, st) := by
  unfold doubleConvFwd doubleConvShape
  simp only [bnStep_false]
  cases conv2dShape inCh outCh 3 1 1 s <;> simp

theorem downFwd_eval (inCh outCh : Nat) (s : Shape) (st : DoubleConvState) :
    downFwd false inCh outCh s st = (downShape inCh outCh s).map fun y => (y, st) := by
  unfold downFwd downShape
  cases maxPool2dShape 2 s <;> simp [doubleConvFwd_eval]

theorem upFwd_eval (inCh outCh : Nat) (x1 x2 : Shape) (st : DoubleConvState) :
    upFwd false inCh outCh x1 x2 st =
      (upShape inCh outCh true x1 x2).map fun y => (y, st) := by
  unfold upFwd upShape
  rw [if_pos rfl]
  simp only [Option.pure_def, Option.bind_eq_bind, Option.some_bind]
  cases padShape (upPadPair ((x2.w : Int) - ((upsampleShape 2 x1).w : Int))).1
      (upPadPair ((x2.w : Int) - ((upsampleShape 2 x1).w : Int))).2
      (upPadPair ((x2.h : Int) - ((upsampleShape 2 x1).h : Int))).1
      (upPadPair ((x2.h : Int) - ((upsampleShape 2 x1).h : Int))).2
      (upsampleShape 2 x1) <;> simp
  rename_i p
  cases catChannels x2 p <;> simp [doubleConvFwd_eval]

theorem bottleneckFwd_eval (inplanes planes stride : Nat) (x : Shape)
    (st : BottleneckState) :
    bottleneckFwd false inplanes planes stride x st =
      (bottleneckShape inplanes planes stride x).map fun y => (y, st) := by
  unfold bottleneckFwd bottleneckShape
  simp only [bnStep_false]
  by_cases hst : 1 < stride
  · rw [if_pos hst, if_pos hst]
    cases conv2dShape inplanes planes 1 stride 0 x <;> simp
  · rw [if_neg hst, if_neg hst]
    simp only [Option.pure_def, Option.bind_eq_bind, Option.some_bind]
    cases conv2dShape inplanes planes 1 1 0 x <;> simp

theorem doubleResFwd_eval (inplanes planes stride : Nat) (x : Shape)
    (st : DoubleResState) :
    doubleResFwd false inplanes planes stride x st =
      (doubleResShape inplanes planes stride x).map fun y => (y, st) := by
  unfold doubleResFwd doubleResShape
  simp only [bottleneckFwd_eval]
  cases bottleneckShape inplanes planes stride x <;> simp
  rename_i a
  cases bottleneckShape planes planes 1 a <;> simp

theorem ctlFwd_eval (inplanes outplanes th tw : Nat) (x : Shape) (st : CTLState) :
    ctlFwd false inplanes outplanes th tw x st =
      (convTransposeLayerShape inplanes outplanes th tw x).map fun y => (y, st) := by
  unfold ctlFwd convTransposeLayerShape
  simp only [bottleneckFwd_eval]
  cases bottleneckShape inplanes inplanes 1 x <;> simp
  rename_i a
  cases convT2dTargetShape inplanes outplanes 3 2 1 th tw a <;> simp

/-- States of all batch-norm-owning submodules of `UNet`. -/
structure UNetState where
  inc : DoubleConvState
  down1 : DoubleConvState
  down2 : DoubleConvState
  down3 : DoubleConvState
  down4 : DoubleConvState
  up1 : DoubleConvState
  up2 : DoubleConvState
  up3 : DoubleConvState
  up4 : DoubleConvState
deriving DecidableEq

/-- Construction-time state of a `UNet`. -/
def initUNetState : UNetState :=
  ⟨initDoubleConv, initDoubleConv, initDoubleConv, initDoubleConv, initDoubleConv,
    initDoubleConv, initDoubleConv, initDoubleConv, initDoubleConv⟩

/-- `UNet.forward` with module state threaded through: each stage receives its
submodule's state and the final result carries all updated states. -/
def unetFwd (tr : Bool) (nch ncl : Nat) (x : Shape) (st : UNetState) :
    Option (Shape × UNetState) := do
  let r1 ← doubleConvFwd tr nch 64 x st.inc
  let r2 ← downFwd tr 64 128 r1.1 st.down1
  let r3 ← downFwd tr 128 256 r2.1 st.down2
  let r4 ← downFwd tr 256 512 r3.1 st.down3
  let r5 ← downFwd tr 512 512 r4.1 st.down4
  let u1 ← upFwd tr 1024 256 r5.1 r4.1 st.up1
  let u2 ← upFwd tr 512 128 u1.1 r3.1 st.up2
  let u3 ← upFwd tr 256 64 u2.1 r2.1 st.up3
  let u4 ← upFwd tr 128 64 u3.1 r1.1 st.up4
  let out ← conv2dShape 64 ncl 1 1 0 u4.1
  pure (out, ⟨r1.2, r2.2, r3.2, r4.2, r5.2, u1.2, u2.2, u3.2, u4.2⟩)

/-- States of the three batch norms of an input or output stem of `UResNet`. -/
structure TripleBNState where
  bn1 : BNState
  bn2 : BNState
  bn3 : BNState
deriving DecidableEq

/-- Construction-time state of a stem. -/
def initTripleBN : TripleBNState := ⟨initBN, initBN, initBN⟩

/-- States of all batch-norm-owning submodules of `UResNet`. -/
structure UResNetState where
  stem : TripleBNState
  enc1 : DoubleResState
  enc2 : DoubleResState
  enc3 : DoubleResState
  enc4 : DoubleResState
  dec4 : CTLState
  dec3 : CTLState
  dec2 : CTLState
  dec1 : CTLState
  head : TripleBNState
deriving DecidableEq

/-- Construction-time state of a `UResNet`. -/
def initUResNetState : UResNetState :=
  ⟨initTripleBN, initDoubleRes, initDoubleRes, initDoubleRes, initDoubleRes,
    initCTL, initCTL, initCTL, initCTL, initTripleBN⟩

/-- The input stem of `UResNet.forward` with module state threaded through. -/
def uresnetStemFwd (tr : Bool) (ic ip : Nat) (x : Shape) (st : TripleBNState) :
    Option (Shape × TripleBNState) := do
  let a ← conv2dShape ic ip 3 1 1 x
  let a ← batchNorm2dShape ip a
  let s1 := bnStep tr st.bn1
  let a := reluShape a
  let e ← conv2dShape ip ip 3 1 1 a
  let e ← batchNorm2dShape ip e
  let s2 := bnStep tr st.bn2
  let e := reluShape e
  let f ← conv2dShape ip ip 3 1 1 e
  let f ← batchNorm2dShape ip f
  let s3 := bnStep tr st.bn3
  pure (reluShape f, ⟨s1, s2, s3⟩)

/-- The classifier stem of `UResNet.forward` with module state threaded
through. -/
def uresnetHeadFwd (tr : Bool) (ip nc : Nat) (x : Shape) (st : TripleBNState) :
    Option (Shape × TripleBNState) := do
  let a ← conv2dShape ip 16 3 1 1 x
  let a ← batchNorm2dShape 16 a
  let s1 := bnStep tr st.bn1
  let a := reluShape a
  let e ← conv2dShape 16 32 3 1 1 a
  let e ← batchNorm2dShape 32 e
  let s2 := bnStep tr st.bn2
  let e := reluShape e
  let f ← conv2dShape 32 16 3 1 1 e
  let f ← batchNorm2dShape 16 f
  let s3 := bnStep tr st.bn3
  let f := reluShape f
  let out ← conv2dShape 16 nc 1 1 0 f
  pure (out, ⟨s1, s2, s3⟩)

/-- `UResNet.forward` with module state threaded through. -/
def uresnetFwd (tr : Bool) (nc ic ip : Nat) (x : Shape) (st : UResNetState) :
    Option (Shape × UResNetState) := do
  let r0 ← uresnetStemFwd tr ic ip x st.stem
  let r1 ← doubleResFwd tr (ip * 1) (ip * 2) 2 r0.1 st.enc1
  let r2 ← doubleResFwd tr (ip * 2) (ip * 4) 2 r1.1 st.enc2
  let r3 ← doubleResFwd tr (ip * 4) (ip * 8) 2 r2.1 st.enc3
  let r4 ← doubleResFwd tr (ip * 8) (ip * 16) 2 r3.1 st.enc4
  let e4 ← ctlFwd tr (ip * 16) (ip * 8) r3.1.h r3.1.w r4.1 st.dec4
  let f4 ← catChannels e4.1 r3.1
  let e3 ← ctlFwd tr (ip * 8 * 2) (ip * 4) r2.1.h r2.1.w f4 st.dec3
  let f3 ← catChannels e3.1 r2.1
  let e2 ← ctlFwd tr (ip * 4 * 2) (ip * 2) r1.1.h r1.1.w f3 st.dec2
  let f2 ← catChannels e2.1 r1.1
  let e1 ← ctlFwd tr (ip * 2 * 2) (ip * 1) r0.1.h r0.1.w f2 st.dec1
  let hd ← uresnetHeadFwd tr ip nc e1.1 st.head
  pure (hd.1, ⟨r0.2, r1.2, r2.2, r3.2, r4.2, e4.2, e3.2, e2.2, e1.2, hd.2⟩)

/-! ### Eval-mode state preservation of each component -/

theorem doubleConvFwd_state {i o : Nat} {s : Shape} {st : DoubleConvState}
    {r : Shape × DoubleConvState} (h : doubleConvFwd false i o s st = some r) : r.2 = st := by
  rw [doubleConvFwd_eval] at h
  obtain ⟨y, hy, rfl⟩ := Option.map_eq_some'.mp h
  rfl

theorem downFwd_state {i o : Nat} {s : Shape} {st : DoubleConvState}
    {r : Shape × DoubleConvState} (h : downFwd false i o s st = some r) : r.2 = st := by
  rw [downFwd_eval] at h
  obtain ⟨y, hy, rfl⟩ := Option.map_eq_some'.mp h
  rfl

theorem upFwd_state {i o : Nat} {x1 x2 : Shape} {st : DoubleConvState}
    {r : Shape × DoubleConvState} (h : upFwd false i o x1 x2 st = some r) : r.2 = st := by
  rw [upFwd_eval] at h
  obtain ⟨y, hy, rfl⟩ := Option.map_eq_some'.mp h
  rfl

theorem bottleneckFwd_state {i p sr : Nat} {x : Shape} {st : BottleneckState}
    {r : Shape × BottleneckState} (h : bottleneckFwd false i p sr x st = some r) :
    r.2 = st := by
  rw [bottleneckFwd_eval] at h
  obtain ⟨y, hy, rfl⟩ := Option.map_eq_some'.mp h
  rfl

theorem doubleResFwd_state {i p sr : Nat} {x : Shape} {st : DoubleResState}
    {r : Shape × DoubleResState} (h : doubleResFwd false i p sr x st = some r) :
    r.2 = st := by
  rw [doubleResFwd_eval] at h
  obtain ⟨y, hy, rfl⟩ := Option.map_eq_some'.mp h
  rfl

theorem ctlFwd_state {i o th tw : Nat} {x : Shape} {st : CTLState}
    {r : Shape × CTLState} (h : ctlFwd false i o th tw x st = some r) : r.2 = st := by
  rw [ctlFwd_eval] at h
  obtain ⟨y, hy, rfl⟩ := Option.map_eq_some'.mp h
  rfl

theorem uresnetStemFwd_state {ic ip : Nat} {x : Shape} {st : TripleBNState}
    {r : Shape × TripleBNState} (h : uresnetStemFwd false ic ip x st = some r) :
    r.2 = st := by
  unfold uresnetStemFwd at h
  obtain ⟨a1, h1, h⟩ := Option.bind_eq_some.mp h
  obtain ⟨a2, h2, h⟩ := Option.bind_eq_some.mp h
  obtain ⟨a3, h3, h⟩ := Option.bind_eq_some.mp h
  obtain ⟨a4, h4, h⟩ := Option.bind_eq_some.mp h
  obtain ⟨a5, h5, h⟩ := Option.bind_eq_some.mp h
  obtain ⟨a6, h6, h⟩ := Option.bind_eq_some.mp h
  cases h
  simp only [bnStep_false]

theorem uresnetHeadFwd_state {ip nc : Nat} {x : Shape} {st : TripleBNState}
    {r : Shape × TripleBNState} (h : uresnetHeadFwd false ip nc x st = some r) :
    r.2 = st := by
  unfold uresnetHeadFwd at h
  obtain ⟨a1, h1, h⟩ := Option.bind_eq_some.mp h
  obtain ⟨a2, h2, h⟩ := Option.bind_eq_some.mp h
  obtain ⟨a3, h3, h⟩ := Option.bind_eq_some.mp h
  obtain ⟨a4, h4, h⟩ := Option.bind_eq_some.mp h
  obtain ⟨a5, h5, h⟩ := Option.bind_eq_some.mp h
  obtain ⟨a6, h6, h⟩ := Option.bind_eq_some.mp h
  obtain ⟨a7, h7, h⟩ := Option.bind_eq_some.mp h
  cases h
  simp only [bnStep_false]

theorem unetFwd_state {nch ncl : Nat} {x : Shape} {st : UNetState}
    {r : Shape × UNetState} (h : unetFwd false nch ncl x st = some r) : r.2 = st := by
  unfold unetFwd at h
  obtain ⟨r1, h1, h⟩ := Option.bind_eq_some.mp h
  obtain ⟨r2, h2, h⟩ := Option.bind_eq_some.mp h
  obtain ⟨r3, h3, h⟩ := Option.bind_eq_some.mp h
  obtain ⟨r4, h4, h⟩ := Option.bind_eq_some.mp h
  obtain ⟨r5, h5, h⟩ := Option.bind_eq_some.mp h
  obtain ⟨u1, hu1, h⟩ := Option.bind_eq_some.mp h
  obtain ⟨u2, hu2, h⟩ := Option.bind_eq_some.mp h
  obtain ⟨u3, hu3, h⟩ := Option.bind_eq_some.mp h
  obtain ⟨u4, hu4, h⟩ := Option.bind_eq_some.mp h
  obtain ⟨out, hout, h⟩ := Option.bind_eq_some.mp h
  cases h
  show (⟨r1.2, r2.2, r3.2, r4.2, r5.2, u1.2, u2.2, u3.2, u4.2⟩ : UNetState) = st
  rw [doubleConvFwd_state h1, downFwd_state h2, downFwd_state h3, downFwd_state h4,
    downFwd_state h5, upFwd_state hu1, upFwd_state hu2, upFwd_state hu3, upFwd_state hu4]

theorem uresnetFwd_state {nc ic ip : Nat} {x : Shape} {st : UResNetState}
    {r : Shape × UResNetState} (h : uresnetFwd false nc ic ip x st = some r) : r.2 = st := by
  unfold uresnetFwd at h
  obtain ⟨r0, h0, h⟩ := Option.bind_eq_some.mp h
  obtain ⟨r1, h1, h⟩ := Option.bind_eq_some.mp h
  obtain ⟨r2, h2, h⟩ := Option.bind_eq_some.mp h
  obtain ⟨r3, h3, h⟩ := Option.bind_eq_some.mp h
  obtain ⟨r4, h4, h⟩ := Option.bind_eq_some.mp h
  obtain ⟨e4, he4, h⟩ := Option.bind_eq_some.mp h
  obtain ⟨f4, hf4, h⟩ := Option.bind_eq_some.mp h
  obtain ⟨e3, he3, h⟩ := Option.bind_eq_some.mp h
  obtain ⟨f3, hf3, h⟩ := Option.bind_eq_some.mp h
  obtain ⟨e2, he2, h⟩ := Option.bind_eq_some.mp h
  obtain ⟨f2, hf2, h⟩ := Option.bind_eq_some.mp h
  obtain ⟨e1, he1, h⟩ := Option.bind_eq_some.mp h
  obtain ⟨hd, hhd, h⟩ := Option.bind_eq_some.mp h
  cases h
  show (⟨r0.2, r1.2, r2.2, r3.2, r4.2, e4.2, e3.2, e2.2, e1.2, hd.2⟩ : UResNetState) = st
  rw [uresnetStemFwd_state h0, doubleResFwd_state h1, doubleResFwd_state h2,
    doubleResFwd_state h3, doubleResFwd_state h4, ctlFwd_state he4, ctlFwd_state he3,
    ctlFwd_state he2, ctlFwd_state he1, uresnetHeadFwd_state hhd]

/-! ### Claim C8: module state across forward calls -/

/-- Counterexample to claim C8 as stated: a freshly constructed `double_conv`
(a component of UNet) is in training mode, the framework default after
construction, and a single forward call advances the batch-norm bookkeeping
of both of its batch norms from 0 to 1: module state beyond the learned
weights and the input-derived activations changes, so a second call does not
find the module state the first call found. -/
theorem c8_stateless_counterexample :
    doubleConvFwd true 1 1 ⟨1, 1, 2, 2⟩ initDoubleConv =
      some (⟨1, 1, 2, 2⟩, ⟨⟨1⟩, ⟨1⟩⟩) ∧
    (⟨⟨1⟩, ⟨1⟩⟩ : DoubleConvState) ≠ initDoubleConv :=
  ⟨by decide, by decide⟩

/-- Claim C8 (amended): no component of UNet or UResNet carries internal state
beyond its learned weight tensors and the framework's batch-norm
running-statistics bookkeeping, and that bookkeeping moves only on
training-mode forwards: in eval mode, every forward call of every component
and of both full models leaves the module state unchanged, and calling
forward again on the same input finds identical module state and returns the
identical result. -/
theorem c8_eval_mode_stateless :
    (∀ (i o : Nat) (s : Shape) (st : DoubleConvState) (r : Shape × DoubleConvState),
      doubleConvFwd false i o s st = some r →
        r.2 = st ∧ doubleConvFwd false i o s r.2 = some r) ∧
    (∀ (i o : Nat) (s : Shape) (st : DoubleConvState) (r : Shape × DoubleConvState),
      downFwd false i o s st = some r → r.2 = st ∧ downFwd false i o s r.2 = some r) ∧
    (∀ (i o : Nat) (x1 x2 : Shape) (st : DoubleConvState) (r : Shape × DoubleConvState),
      upFwd false i o x1 x2 st = some r → r.2 = st ∧ upFwd false i o x1 x2 r.2 = some r) ∧
    (∀ (i p sr : Nat) (x : Shape) (st : BottleneckState) (r : Shape × BottleneckState),
      bottleneckFwd false i p sr x st = some r →
        r.2 = st ∧ bottleneckFwd false i p sr x r.2 = some r) ∧
    (∀ (i p sr : Nat) (x : Shape) (st : DoubleResState) (r : Shape × DoubleResState),
      doubleResFwd false i p sr x st = some r →
        r.2 = st ∧ doubleResFwd false i p sr x r.2 = some r) ∧
    (∀ (i o th tw : Nat) (x : Shape) (st : CTLState) (r : Shape × CTLState),
      ctlFwd false i o th tw x st = some r →
        r.2 = st ∧ ctlFwd false i o th tw x r.2 = some r) ∧
    (∀ (nch ncl : Nat) (x : Shape) (st : UNetState) (r : Shape × UNetState),
      unetFwd false nch ncl x st = some r →
        r.2 = st ∧ unetFwd false nch ncl x r.2 = some r) ∧
    (∀ (nc ic ip : Nat) (x : Shape) (st : UResNetState) (r : Shape × UResNetState),
      uresnetFwd false nc ic ip x st = some r →
        r.2 = st ∧ uresnetFwd false nc ic ip x r.2 = some r) := by
  refine ⟨?_, ?_, ?_, ?_, ?_, ?_, ?_, ?_⟩
  · intro i o s st r h
    have hs := doubleConvFwd_state h
    exact ⟨hs, by rw [hs]; exact h⟩
  · intro i o s st r h
    have hs := downFwd_state h
    exact ⟨hs, by rw [hs]; exact h⟩
  · intro i o x1 x2 st r h
    have hs := upFwd_state h
    exact ⟨hs, by rw [hs]; exact h⟩
  · intro i p sr x st r h
    have hs := bottleneckFwd_state h
    exact ⟨hs, by rw [hs]; exact h⟩
  · intro i p sr x st r h
    have hs := doubleResFwd_state h
    exact ⟨hs, by rw [hs]; exact h⟩
  · intro i o th tw x st r h
    have hs := ctlFwd_state h
    exact ⟨hs, by rw [hs]; exact h⟩
  · intro nch ncl x st r h
    have hs := unetFwd_state h
    exact ⟨hs, by rw [hs]; exact h⟩
  · intro nc ic ip x st r h
    have hs := uresnetFwd_state h
    exact ⟨hs, by rw [hs]; exact h⟩

/-- Witness for `c8_eval_mode_stateless`: an eval-mode `double_conv` call and
an eval-mode full `UNet.forward` call, both from the construction-time state. -/
theorem c8_eval_mode_stateless_witness :
    (((⟨1, 1, 2, 2⟩, initDoubleConv) : Shape × DoubleConvState).2 = initDoubleConv ∧
      doubleConvFwd false 1 1 ⟨1, 1, 2, 2⟩
        ((⟨1, 1, 2, 2⟩, initDoubleConv) : Shape × DoubleConvState).2 =
        some (⟨1, 1, 2, 2⟩, initDoubleConv)) ∧
    (((⟨1, 2, 16, 16⟩, initUNetState) : Shape × UNetState).2 = initUNetState ∧
      unetFwd false 1 2 ⟨1, 1, 16, 16⟩
        ((⟨1, 2, 16, 16⟩, initUNetState) : Shape × UNetState).2 =
        some (⟨1, 2, 16, 16⟩, initUNetState)) :=
  ⟨c8_eval_mode_stateless.1 1 1 ⟨1, 1, 2, 2⟩ initDoubleConv
      (⟨1, 1, 2, 2⟩, initDoubleConv) (by decide),
   c8_eval_mode_stateless.2.2.2.2.2.2.1 1 2 ⟨1, 1, 16, 16⟩ initUNetState
      (⟨1, 2, 16, 16⟩, initUNetState) (by decide)⟩

/-! ### Claim C9: forward passes are deterministic -/

/-- Claim C9: every forward pass is deterministic: for the building blocks and
for `UNet.forward` and `UResNet.forward` (with or without the state
threading, in either mode), two evaluations with identical weights, identical
module state and identical input produce identical results. -/
theorem c9_forward_deterministic :
    (∀ (i p sr : Nat) (x y y2 : Shape), bottleneckShape i p sr x = some y →
      bottleneckShape i p sr x = some y2 → y = y2) ∧
    (∀ (nch ncl : Nat) (x y y2 : Shape), unetForward nch ncl x = some y →
      unetForward nch ncl x = some y2 → y = y2) ∧
    (∀ (nc ic ip : Nat) (x y y2 : Shape), uresnetForward nc ic ip x = some y →
      uresnetForward nc ic ip x = some y2 → y = y2) ∧
    (∀ (tr : Bool) (nch ncl : Nat) (x : Shape) (st : UNetState)
        (r r2 : Shape × UNetState),
      unetFwd tr nch ncl x st = some r → unetFwd tr nch ncl x st = some r2 → r = r2) ∧
    (∀ (tr : Bool) (nc ic ip : Nat) (x : Shape) (st : UResNetState)
        (r r2 : Shape × UResNetState),
      uresnetFwd tr nc ic ip x st = some r → uresnetFwd tr nc ic ip x st = some r2 →
        r = r2) := by
  refine ⟨?_, ?_, ?_, ?_, ?_⟩
  · intro i p sr x y y2 h h2
    rw [h] at h2
    exact Option.some_inj.mp h2
  · intro nch ncl x y y2 h h2
    rw [h] at h2
    exact Option.some_inj.mp h2
  · intro nc ic ip x y y2 h h2
    rw [h] at h2
    exact Option.some_inj.mp h2
  · intro tr nch ncl x st r r2 h h2
    rw [h] at h2
    exact Option.some_inj.mp h2
  · intro tr nc ic ip x st r r2 h h2
    rw [h] at h2
    exact Option.some_inj.mp h2

/-- Witness for `c9_forward_deterministic` at concrete runs of every listed
forward. -/
theorem c9_forward_deterministic_witness :
    (⟨1, 3, 3, 3⟩ : Shape) = ⟨1, 3, 3, 3⟩ ∧
    (⟨1, 5, 16, 16⟩ : Shape) = ⟨1, 5, 16, 16⟩ ∧
    (⟨1, 2, 16, 16⟩ : Shape) = ⟨1, 2, 16, 16⟩ ∧
    ((⟨1, 2, 16, 16⟩, initUNetState) : Shape × UNetState) =
      (⟨1, 2, 16, 16⟩, initUNetState) ∧
    ((⟨1, 2, 16, 16⟩, initUResNetState) : Shape × UResNetState) =
      (⟨1, 2, 16, 16⟩, initUResNetState) :=
  ⟨c9_forward_deterministic.1 2 3 2 ⟨1, 2, 5, 5⟩ _ _ (by decide) (by decide),
   c9_forward_deterministic.2.1 3 5 ⟨1, 3, 16, 16⟩ _ _ (by decide) (by decide),
   c9_forward_deterministic.2.2.1 2 1 16 ⟨1, 1, 16, 16⟩ _ _ (by decide) (by decide),
   c9_forward_deterministic.2.2.2.1 false 1 2 ⟨1, 1, 16, 16⟩ initUNetState _ _
      (by decide) (by decide),
   c9_forward_deterministic.2.2.2.2 false 2 1 16 ⟨1, 1, 16, 16⟩ initUResNetState _ _
      (by decide) (by decide)⟩
